import Mathlib

/-!
A shallow embedding of the Catalog Synchronization & Feed Caching Engine of
the `sports-one` server (`src/server.js`), together with theorems settling
the specification claims about it.

Modelling conventions:
* JavaScript strings are Lean `String`s; absent / `null` string fields are
  `Option String` (`none` = absent), and JS truthiness of a string value is
  "present and non-empty" (`optTruthy`).
* Timestamps (`Date.now()`, ISO strings) are `Nat` milliseconds.
* The random ids minted by `crypto.randomBytes` are modelled by caller
  supplied fresh-id strings / counters; no behaviour of the engine depends
  on the id contents.
* JS objects used as string-keyed maps (`catalogSyncState`,
  `feedCacheBySport`, per-sport cache maps) are association lists in key
  insertion order: assignment replaces in place or appends, `delete`
  removes the key.
* Whitespace (`\s`, `trim`) is modelled by the four common whitespace
  characters (space, tab, newline, carriage return).
-/

/-- Whitespace test used to model JS `trim()` and the regex class `\s`. -/
def isWsChar (c : Char) : Bool :=
  c = ' ' || c = '\t' || c = '\n' || c = '\r'

/-- Drop leading and trailing whitespace from a character list (JS `trim()`). -/
def trimChars (l : List Char) : List Char :=
  ((l.dropWhile isWsChar).reverse.dropWhile isWsChar).reverse

/-- JS `String.prototype.trim`. -/
def trimString (s : String) : String :=
  String.mk (trimChars s.data)

/-- Collapse every whitespace run to a single space; the boolean records
whether the previous character was part of a whitespace run
(models `.replace(/\s+/g, ' ')`). -/
def collapseWsAux : Bool → List Char → List Char
  | _, [] => []
  | prevWs, c :: cs =>
      if isWsChar c then
        if prevWs then collapseWsAux true cs
        else ' ' :: collapseWsAux true cs
      else c :: collapseWsAux false cs

/-- Characters kept by `normalizeName` (regex class `[a-z0-9\s-]` after
lower-casing). -/
def isNormChar (c : Char) : Bool :=
  ('a' ≤ c && c ≤ 'z') || ('0' ≤ c && c ≤ '9') || isWsChar c || c = '-'

/-- `normalizeName` from `server.js`: trim, lower-case, strip characters
outside `[a-z0-9\s-]`, collapse whitespace runs to one space, trim. -/
def normalizeName (s : String) : String :=
  String.mk
    (trimChars
      (collapseWsAux false
        ((trimChars s.data).map Char.toLower |>.filter isNormChar)))

/-- Characters kept verbatim by `slugify` (regex class `[a-z0-9]`). -/
def isSlugChar (c : Char) : Bool :=
  ('a' ≤ c && c ≤ 'z') || ('0' ≤ c && c ≤ '9')

/-- Replace each maximal run of non-`[a-z0-9]` characters with a single dash
(models `.replace(/[^a-z0-9]+/g, '-')`). -/
def slugRunsAux : Bool → List Char → List Char
  | _, [] => []
  | prevDash, c :: cs =>
      if isSlugChar c then c :: slugRunsAux false cs
      else
        if prevDash then slugRunsAux true cs
        else '-' :: slugRunsAux true cs

/-- Remove one leading dash if present (half of `.replace(/(^-|-$)/g, '')`). -/
def dropLeadDash : List Char → List Char
  | '-' :: rest => rest
  | l => l

/-- `slugify` from `server.js`: lower-case, trim, dash-join alphanumeric
runs, strip a leading and a trailing dash. -/
def slugify (s : String) : String :=
  String.mk
    ((dropLeadDash
        ((slugRunsAux false (trimChars (s.data.map Char.toLower))).reverse)).reverse
      |> dropLeadDash)

/-- JS truthiness of an optional string field: present and non-empty. -/
def optTruthy : Option String → Bool
  | none => false
  | some s => s ≠ ""

/-- Model of `String(x || '').trim() || null`: trim, empty becomes absent. -/
def strToOpt (s : String) : Option String :=
  let t := trimString s
  if t = "" then none else some t

/-! ## Entity records (the store's collections) -/

/-- A Sport record of the catalog. -/
structure Sport where
  id : String
  name : String
  slug : String
  isPopular : Bool
  externalSource : Option String
  externalId : Option String
deriving Repr, DecidableEq

/-- A League record; belongs to one sport. -/
structure League where
  id : String
  sportId : String
  name : String
  slug : String
  externalSource : Option String
  externalId : Option String
deriving Repr, DecidableEq

/-- A Team record; belongs to one sport. -/
structure Team where
  id : String
  sportId : String
  name : String
  slug : String
  externalSource : Option String
  externalId : Option String
deriving Repr, DecidableEq

/-- A Player record; belongs to one sport, weak team back-reference. -/
structure Player where
  id : String
  sportId : String
  teamId : Option String
  name : String
  externalSource : Option String
  externalId : Option String
deriving Repr, DecidableEq

/-- The entity type of a follow edge. -/
inductive EntityType where
  | sport
  | team
  | player
  | league
deriving Repr, DecidableEq

/-- A follow edge from a user to an entity. -/
structure Follow where
  id : String
  userId : String
  entityType : EntityType
  entityId : String
  createdAt : Nat
deriving Repr, DecidableEq

/-- Per-sport catalog sync state (`store.catalogSyncState[sportId]`).
The `status` strings are the literal JS values. -/
structure CatalogSyncState where
  lastAttemptAt : Option Nat
  lastSuccessAt : Option Nat
  status : String
  timedOut : Option Bool
  error : Option String
  touchedTeams : Nat
  touchedPlayerTeams : Nat
  createdTeams : Nat
  createdPlayers : Nat
  createdLeagues : Nat
deriving Repr, DecidableEq

/-- One sync history entry (`pushSyncHistory` payloads); optional fields
model the varying payload spreads. -/
structure SyncHistoryEntry where
  id : String
  createdAt : Nat
  source : String
  entryType : String
  status : String
  sportId : Option String
  error : Option String
  timedOut : Option Bool
  touchedTeams : Option Nat
  touchedPlayerTeams : Option Nat
  createdTeams : Option Nat
  createdPlayers : Option Nat
  createdLeagues : Option Nat
deriving Repr, DecidableEq

/-- One feed cache entry; highlight / news items are opaque payloads. -/
structure FeedCacheEntry where
  fetchedAt : Nat
  highlights : List String
  news : List String
deriving Repr, DecidableEq

/-- The record store document (the collections the engine touches). -/
structure Store where
  sports : List Sport
  leagues : List League
  teams : List Team
  players : List Player
  follows : List Follow
  userSportOrder : List (String × List String)
  syncHistory : List SyncHistoryEntry
  catalogSyncState : List (String × CatalogSyncState)
  feedCacheBySport : List (String × List (String × FeedCacheEntry))
deriving Repr, DecidableEq

/-! ## String-keyed object maps as association lists -/

/-- Read a key from a JS-object map. -/
def alookup {α : Type} (l : List (String × α)) (k : String) : Option α :=
  (l.find? (fun p => p.1 == k)).map (·.2)

/-- Assign a key in a JS-object map: replace in place or append. -/
def aset {α : Type} : List (String × α) → String → α → List (String × α)
  | [], k, v => [(k, v)]
  | (k', v') :: rest, k, v =>
      if k' == k then (k, v) :: rest else (k', v') :: aset rest k v

/-- Delete a key from a JS-object map. -/
def aerase {α : Type} : List (String × α) → String → List (String × α)
  | [], _ => []
  | (k', v') :: rest, k =>
      if k' == k then rest else (k', v') :: aerase rest k

/-- Apply `f` to the first list element satisfying `p` (models mutating the
object returned by `Array.prototype.find`). -/
def updateFirst {α : Type} (p : α → Bool) (f : α → α) : List α → List α
  | [] => []
  | x :: xs => if p x then f x :: xs else x :: updateFirst p f xs

/-! ## Provider rows (raw SportsDB payload rows).
Absent JS fields are the empty string (the code reads them as
`String(row.x || '')`). -/

/-- A row of `all_sports.php`. -/
structure SportsDbSportRow where
  strSport : String
  idSport : String
deriving Repr, DecidableEq

/-- A row of `all_leagues.php`. -/
structure SportsDbLeagueRow where
  strLeague : String
  strSport : String
  idLeague : String
deriving Repr, DecidableEq

/-- A row of `search_all_teams.php`. -/
structure SportsDbTeamRow where
  strTeam : String
  idTeam : String
deriving Repr, DecidableEq

/-- A row of `lookup_all_players.php`. -/
structure SportsDbPlayerRow where
  strPlayer : String
  idPlayer : String
deriving Repr, DecidableEq

/-! ## Entity Merge Engine: the four upserts -/

/-- The fixed popular-sport name set of `upsertSportFromSportsDb`. -/
def popularSportNames : List String :=
  ["soccer", "basketball", "american football", "baseball", "cricket",
   "tennis", "formula 1", "mixed martial arts", "ice hockey", "golf"]

/-- Match predicate of `upsertSportFromSportsDb`'s `find`. -/
def sportMatchesRow (externalId : Option String) (normalized : String)
    (sport : Sport) : Bool :=
  (match externalId with
   | some e => sport.externalId == some e && sport.externalSource == some "sportsdb"
   | none => false) ||
  normalizeName sport.name == normalized

/-- Provenance write applied to a found record when the row carries an
external id (`existing.externalSource = 'sportsdb'; existing.externalId = ...`). -/
def sportApplyExt (externalId : Option String) (s : Sport) : Sport :=
  match externalId with
  | some e => { s with externalSource := some "sportsdb", externalId := some e }
  | none => s

/-- `upsertSportFromSportsDb(store, row)`; `freshId` models the random id. -/
def upsertSportFromSportsDb (store : Store) (row : SportsDbSportRow)
    (freshId : String) : Store × Option Sport :=
  let name := trimString row.strSport
  if name = "" then (store, none)
  else
    let externalId := strToOpt row.idSport
    let normalized := normalizeName name
    match store.sports.find? (sportMatchesRow externalId normalized) with
    | some existing =>
        ({ store with
            sports := updateFirst (sportMatchesRow externalId normalized)
              (sportApplyExt externalId) store.sports },
         some (sportApplyExt externalId existing))
    | none =>
        let sport : Sport :=
          { id := freshId, name := name, slug := slugify name,
            isPopular := popularSportNames.contains normalized,
            externalSource := externalId.map (fun _ => "sportsdb"),
            externalId := externalId }
        ({ store with sports := store.sports ++ [sport] }, some sport)

/-- Match predicate of `upsertLeagueFromSportsDb`'s `find`. -/
def leagueMatchesRow (sportId : String) (externalId : Option String)
    (normalized : String) (league : League) : Bool :=
  league.sportId == sportId &&
  ((match externalId with
    | some e => league.externalId == some e && league.externalSource == some "sportsdb"
    | none => false) ||
   normalizeName league.name == normalized)

/-- Provenance write for a found league. -/
def leagueApplyExt (externalId : Option String) (l : League) : League :=
  match externalId with
  | some e => { l with externalSource := some "sportsdb", externalId := some e }
  | none => l

/-- `upsertLeagueFromSportsDb(store, row)`. -/
def upsertLeagueFromSportsDb (store : Store) (row : SportsDbLeagueRow)
    (freshId : String) : Store × Option League :=
  let name := trimString row.strLeague
  let sportName := trimString row.strSport
  if name = "" || sportName = "" then (store, none)
  else
    match store.sports.find?
        (fun s => normalizeName s.name == normalizeName sportName) with
    | none => (store, none)
    | some sport =>
        let externalId := strToOpt row.idLeague
        let normalized := normalizeName name
        match store.leagues.find? (leagueMatchesRow sport.id externalId normalized) with
        | some existing =>
            ({ store with
                leagues := updateFirst (leagueMatchesRow sport.id externalId normalized)
                  (leagueApplyExt externalId) store.leagues },
             some (leagueApplyExt externalId existing))
        | none =>
            let league : League :=
              { id := freshId, sportId := sport.id, name := name, slug := slugify name,
                externalSource := externalId.map (fun _ => "sportsdb"),
                externalId := externalId }
            ({ store with leagues := store.leagues ++ [league] }, some league)

/-- Match predicate of `upsertTeamFromSportsDb`'s `find`. -/
def teamMatchesRow (sportId : String) (externalId : Option String)
    (normalized : String) (team : Team) : Bool :=
  team.sportId == sportId &&
  ((match externalId with
    | some e => team.externalId == some e && team.externalSource == some "sportsdb"
    | none => false) ||
   normalizeName team.name == normalized)

/-- Provenance write for a found team. -/
def teamApplyExt (externalId : Option String) (t : Team) : Team :=
  match externalId with
  | some e => { t with externalSource := some "sportsdb", externalId := some e }
  | none => t

/-- `upsertTeamFromSportsDb(store, sportId, row)`. -/
def upsertTeamFromSportsDb (store : Store) (sportId : String)
    (row : SportsDbTeamRow) (freshId : String) : Store × Option Team :=
  let name := trimString row.strTeam
  if name = "" then (store, none)
  else
    let externalId := strToOpt row.idTeam
    let normalized := normalizeName name
    match store.teams.find? (teamMatchesRow sportId externalId normalized) with
    | some existing =>
        ({ store with
            teams := updateFirst (teamMatchesRow sportId externalId normalized)
              (teamApplyExt externalId) store.teams },
         some (teamApplyExt externalId existing))
    | none =>
        let team : Team :=
          { id := freshId, sportId := sportId, name := name, slug := slugify name,
            externalSource := externalId.map (fun _ => "sportsdb"),
            externalId := externalId }
        ({ store with teams := store.teams ++ [team] }, some team)

/-- Match predicate of `upsertPlayerFromSportsDb`'s `find`. -/
def playerMatchesRow (sportId : String) (externalId : Option String)
    (normalized : String) (player : Player) : Bool :=
  player.sportId == sportId &&
  ((match externalId with
    | some e => player.externalId == some e && player.externalSource == some "sportsdb"
    | none => false) ||
   normalizeName player.name == normalized)

/-- Updates applied to a found player: provenance write when the row has an
external id, team back-reference write when a team id is supplied. -/
def playerApplyExt (externalId : Option String) (teamId : Option String)
    (p : Player) : Player :=
  let p1 :=
    match externalId with
    | some e => { p with externalSource := some "sportsdb", externalId := some e }
    | none => p
  match teamId with
  | some t => { p1 with teamId := some t }
  | none => p1

/-- `upsertPlayerFromSportsDb(store, sportId, teamId, row)`. -/
def upsertPlayerFromSportsDb (store : Store) (sportId : String)
    (teamId : Option String) (row : SportsDbPlayerRow) (freshId : String) :
    Store × Option Player :=
  let name := trimString row.strPlayer
  if name = "" then (store, none)
  else
    let externalId := strToOpt row.idPlayer
    let normalized := normalizeName name
    match store.players.find? (playerMatchesRow sportId externalId normalized) with
    | some existing =>
        ({ store with
            players := updateFirst (playerMatchesRow sportId externalId normalized)
              (playerApplyExt externalId teamId) store.players },
         some (playerApplyExt externalId teamId existing))
    | none =>
        let player : Player :=
          { id := freshId, sportId := sportId, teamId := teamId,
            name := name,
            externalSource := externalId.map (fun _ => "sportsdb"),
            externalId := externalId }
        ({ store with players := store.players ++ [player] }, some player)

/-- The provenance-backed ("real") part of a sport's catalog. -/
structure RealCatalog where
  teams : List Team
  players : List Player
  leagues : List League
deriving Repr, DecidableEq

/-- `getRealCatalogForSport(store, sportId)`. -/
def getRealCatalogForSport (store : Store) (sportId : String) : RealCatalog :=
  { teams := store.teams.filter
      (fun t => t.sportId == sportId && t.externalSource == some "sportsdb" &&
        optTruthy t.externalId),
    players := store.players.filter
      (fun p => p.sportId == sportId && p.externalSource == some "sportsdb" &&
        optTruthy p.externalId),
    leagues := store.leagues.filter
      (fun l => l.sportId == sportId && l.externalSource == some "sportsdb" &&
        optTruthy l.externalId) }

/-! ## Catalog Sync Orchestrator -/

/-- Outcome of one provider call: `.error` models a thrown fetch error. -/
def exListD {α : Type} : Except String (List α) → List α
  | .ok l => l
  | .error _ => []

/-- The provider endpoints `syncSportCatalogFromSportsDb` calls. A `.error`
value models the call throwing; a `.ok` with a list models a response whose
named array field was present (absent / malformed arrays are `.ok []`). -/
structure Provider where
  allLeagues : Except String (List SportsDbLeagueRow)
  searchTeamsByLeague : String → Except String (List SportsDbTeamRow)
  lookupPlayers : String → Except String (List SportsDbPlayerRow)
  searchTeamsByCountry : String → String → Except String (List SportsDbTeamRow)

/-- The options bag of `syncSportCatalogFromSportsDb`; `none` models an
absent option. -/
structure SyncOptions where
  force : Bool := false
  maxTeams : Option Nat := none
  maxLeagues : Option Nat := none
  playersPerTeamCap : Option Nat := none
  maxPlayerTeams : Option Nat := none
  maxDurationMs : Option Nat := none
  cooldownMs : Option Nat := none
deriving Repr, DecidableEq

/-- `Number(options.x || default)`: an absent or zero (falsy) value becomes
the default. -/
def resolveOpt : Option Nat → Nat → Nat
  | none, d => d
  | some v, d => if v = 0 then d else v

/-- Wall-clock inputs of one sync run: `now` is the `Date.now()` of the
cooldown check, `elapsed k` the elapsed milliseconds at the `k`-th
`isTimeUp()` call, `finish` the timestamp written into state/history. -/
structure Clock where
  now : Nat
  elapsed : Nat → Nat
  finish : Nat

/-- The value returned by `syncSportCatalogFromSportsDb`; `Option` fields
model fields absent from some of the return objects. -/
structure SyncResult where
  ok : Bool
  reason : Option String
  skipped : Bool
  status : Option String
  timedOut : Option Bool
  error : Option String
  createdTeams : Nat
  createdPlayers : Nat
  createdLeagues : Nat
  touchedTeams : Option Nat
  touchedPlayerTeams : Option Nat
deriving Repr, DecidableEq

/-- Loop state of the crawl: the evolving store, the fresh-id counter, the
run counters, the seen-team-external-id set, and the index of the next
`isTimeUp()` call. -/
structure SyncLoopSt where
  store : Store
  fresh : Nat
  createdTeams : Nat
  createdPlayers : Nat
  touchedTeams : Nat
  touchedPlayerTeams : Nat
  seen : List String
  tIdx : Nat

/-- Fixed parameters of one crawl. -/
structure SyncCtx where
  sportId : String
  sportName : String
  provider : Provider
  clock : Clock
  maxTeams : Nat
  playersPerTeamCap : Nat
  maxPlayerTeams : Nat
  maxDurationMs : Nat

/-- The `k`-th `isTimeUp()` call: `Date.now() - startedAt >= maxDurationMs`. -/
def isTimeUpAt (ctx : SyncCtx) (k : Nat) : Bool :=
  decide (ctx.maxDurationMs ≤ ctx.clock.elapsed k)

/-- Merge up to `playersPerTeamCap` players of one team
(`players.slice(0, playersPerTeamCap).forEach(...)`). -/
def syncMergePlayers (ctx : SyncCtx) (teamId : String)
    (rows : List SportsDbPlayerRow) (st : SyncLoopSt) : SyncLoopSt :=
  (rows.take ctx.playersPerTeamCap).foldl
    (fun st row =>
      let before := st.store.players.length
      let res := upsertPlayerFromSportsDb st.store ctx.sportId (some teamId) row
        ("pl_" ++ toString st.fresh)
      { st with
          store := res.1,
          fresh := st.fresh + 1,
          createdPlayers := st.createdPlayers +
            (if before < res.1.players.length then 1 else 0) })
    st

/-- The inner `for (const teamRow of teams)` loop of the league stage,
including player expansion. A time-up or `maxTeams` check exits the loop. -/
def syncTeamLoop (ctx : SyncCtx) : List SportsDbTeamRow → SyncLoopSt → SyncLoopSt
  | [], st => st
  | row :: rest, st =>
    if isTimeUpAt ctx st.tIdx then { st with tIdx := st.tIdx + 1 }
    else
      let st := { st with tIdx := st.tIdx + 1 }
      let teamExternalId := trimString row.idTeam
      if teamExternalId != "" && st.seen.contains teamExternalId then
        syncTeamLoop ctx rest st
      else
        let st :=
          if teamExternalId != "" then { st with seen := st.seen ++ [teamExternalId] }
          else st
        if ctx.maxTeams ≤ st.touchedTeams then st
        else
          let before := st.store.teams.length
          let res := upsertTeamFromSportsDb st.store ctx.sportId row
            ("tm_" ++ toString st.fresh)
          let st := { st with store := res.1, fresh := st.fresh + 1 }
          match res.2 with
          | none => syncTeamLoop ctx rest st
          | some team =>
            let st := { st with
                          touchedTeams := st.touchedTeams + 1,
                          createdTeams := st.createdTeams +
                            (if before < res.1.teams.length then 1 else 0) }
            if !optTruthy team.externalId || ctx.maxPlayerTeams ≤ st.touchedPlayerTeams then
              syncTeamLoop ctx rest st
            else
              let players := exListD (ctx.provider.lookupPlayers (team.externalId.getD ""))
              if 0 < players.length then
                syncTeamLoop ctx rest
                  (syncMergePlayers ctx team.id players
                    { st with touchedPlayerTeams := st.touchedPlayerTeams + 1 })
              else syncTeamLoop ctx rest st

/-- The `for (const league of sportLeagues)` loop. Per-league team fetch
failures are caught inside the loop and degrade to an empty list. -/
def syncLeagueLoop (ctx : SyncCtx) : List League → SyncLoopSt → SyncLoopSt
  | [], st => st
  | league :: rest, st =>
    if isTimeUpAt ctx st.tIdx then { st with tIdx := st.tIdx + 1 }
    else
      let st := { st with tIdx := st.tIdx + 1 }
      let teams := exListD (ctx.provider.searchTeamsByLeague league.name)
      let st := syncTeamLoop ctx teams st
      if ctx.maxTeams ≤ st.touchedTeams then st
      else syncLeagueLoop ctx rest st

/-- The fixed country list of the soccer fallback. -/
def popularCountries : List String :=
  ["England", "Spain", "Germany", "Italy", "France", "Netherlands",
   "Portugal", "Brazil"]

/-- The inner team loop of the soccer country fallback (no player
expansion). -/
def syncCountryTeamLoop (ctx : SyncCtx) :
    List SportsDbTeamRow → SyncLoopSt → SyncLoopSt
  | [], st => st
  | row :: rest, st =>
    if isTimeUpAt ctx st.tIdx then { st with tIdx := st.tIdx + 1 }
    else
      let st := { st with tIdx := st.tIdx + 1 }
      let teamExternalId := trimString row.idTeam
      if teamExternalId != "" && st.seen.contains teamExternalId then
        syncCountryTeamLoop ctx rest st
      else
        let st :=
          if teamExternalId != "" then { st with seen := st.seen ++ [teamExternalId] }
          else st
        if ctx.maxTeams ≤ st.touchedTeams then st
        else
          let before := st.store.teams.length
          let res := upsertTeamFromSportsDb st.store ctx.sportId row
            ("tm_" ++ toString st.fresh)
          let st := { st with store := res.1, fresh := st.fresh + 1 }
          match res.2 with
          | none => syncCountryTeamLoop ctx rest st
          | some _ =>
            syncCountryTeamLoop ctx rest
              { st with
                  touchedTeams := st.touchedTeams + 1,
                  createdTeams := st.createdTeams +
                    (if before < res.1.teams.length then 1 else 0) }

/-- The `for (const country of popularCountries)` fallback loop. -/
def syncCountryLoop (ctx : SyncCtx) : List String → SyncLoopSt → SyncLoopSt
  | [], st => st
  | country :: rest, st =>
    if isTimeUpAt ctx st.tIdx then { st with tIdx := st.tIdx + 1 }
    else
      let st := { st with tIdx := st.tIdx + 1 }
      if ctx.maxTeams ≤ st.touchedTeams then st
      else
        let teams := exListD (ctx.provider.searchTeamsByCountry ctx.sportName country)
        syncCountryLoop ctx rest (syncCountryTeamLoop ctx teams st)

/-- `pushSyncHistory(store, payload)`: prepend, cap at 50 entries. -/
def pushSyncHistory (store : Store) (entry : SyncHistoryEntry) : Store :=
  { store with syncHistory := (entry :: store.syncHistory).take 50 }

/-- The cooldown-skip condition (line 401): not forced, a prior success
within the cooldown window, and the existing provenance-backed catalog not
in need of enrichment (fewer than 40 teams or fewer than 80 players). -/
def syncSkipCheck (store : Store) (sportId : String) (force : Bool)
    (cooldownMs : Nat) (now : Nat) : Bool :=
  let priorSuccess := (alookup store.catalogSyncState sportId).bind
    (fun s => s.lastSuccessAt)
  let existingCatalog := getRealCatalogForSport store sportId
  let needsEnrichment :=
    existingCatalog.teams.length < 40 || existingCatalog.players.length < 80
  let withinCooldown :=
    match priorSuccess with
    | some t => decide (now - t < cooldownMs)
    | none => false
  !force && withinCooldown && !needsEnrichment

/-- Line 502's `hasData`: the sport's provenance-backed catalog is
non-empty after the crawl. -/
def catalogHasData (store : Store) (sportId : String) : Bool :=
  let real := getRealCatalogForSport store sportId
  (0 < real.teams.length || 0 < real.players.length) || 0 < real.leagues.length

/-- `syncSportCatalogFromSportsDb` after option resolution (lines 385-391
resolve the options; this is the rest of the function). -/
def syncSportCatalogResolved (store : Store) (sportId : String) (force : Bool)
    (maxTeams maxLeagues playersPerTeamCap maxPlayerTeams maxDurationMs cooldownMs : Nat)
    (provider : Provider) (clock : Clock) (fresh0 : Nat) : Store × SyncResult :=
  match store.sports.find? (fun s => s.id == sportId) with
  | none =>
    (store,
     { ok := false, reason := some "sport_not_found", skipped := false,
       status := none, timedOut := none, error := none,
       createdTeams := 0, createdPlayers := 0, createdLeagues := 0,
       touchedTeams := none, touchedPlayerTeams := none })
  | some sport =>
    let priorSuccess := (alookup store.catalogSyncState sportId).bind
      (fun s => s.lastSuccessAt)
    if syncSkipCheck store sportId force cooldownMs clock.now then
      (store,
       { ok := true, reason := none, skipped := true,
         status := none, timedOut := none, error := none,
         createdTeams := 0, createdPlayers := 0, createdLeagues := 0,
         touchedTeams := none, touchedPlayerTeams := none })
    else
      match provider.allLeagues with
      | .error msg =>
        -- the `all_leagues.php` fetch is the only provider call not wrapped
        -- in an inner try/catch; its failure reaches the top-level catch
        -- before any merge ran, so every counter is still zero here
        let errState : CatalogSyncState :=
          { lastAttemptAt := some clock.finish, lastSuccessAt := priorSuccess,
            status := "error", timedOut := none, error := some msg,
            touchedTeams := 0, touchedPlayerTeams := 0,
            createdTeams := 0, createdPlayers := 0, createdLeagues := 0 }
        let store1 :=
          { store with
              catalogSyncState := aset store.catalogSyncState sportId errState }
        let store2 := pushSyncHistory store1
          { id := "sync_" ++ toString fresh0, createdAt := clock.finish,
            source := "sportsdb", entryType := "catalog", status := "error",
            sportId := some sportId, error := some msg, timedOut := none,
            touchedTeams := none, touchedPlayerTeams := none,
            createdTeams := none, createdPlayers := none, createdLeagues := none }
        (store2,
         { ok := false, reason := some "provider_error", skipped := false,
           status := none, timedOut := none, error := some msg,
           createdTeams := 0, createdPlayers := 0, createdLeagues := 0,
           touchedTeams := some 0, touchedPlayerTeams := some 0 })
      | .ok leagueRows =>
        let ctx : SyncCtx :=
          { sportId := sportId, sportName := sport.name, provider := provider,
            clock := clock, maxTeams := maxTeams,
            playersPerTeamCap := playersPerTeamCap,
            maxPlayerTeams := maxPlayerTeams, maxDurationMs := maxDurationMs }
        let rowsForSport := leagueRows.filter
          (fun r => normalizeName r.strSport == normalizeName sport.name)
        let step1 := rowsForSport.foldl
          (fun (acc : Store × Nat × Nat) row =>
            let before := acc.1.leagues.length
            let res := upsertLeagueFromSportsDb acc.1 row ("lg_" ++ toString acc.2.1)
            (res.1, acc.2.1 + 1,
             acc.2.2 + (if before < res.1.leagues.length then 1 else 0)))
          (store, fresh0, 0)
        let store1 := step1.1
        let fresh1 := step1.2.1
        let createdLeagues := step1.2.2
        let sportLeagues := (store1.leagues.filter (fun lg =>
            lg.sportId == sportId && lg.externalSource == some "sportsdb" &&
            optTruthy lg.externalId)).take maxLeagues
        let st0 : SyncLoopSt :=
          { store := store1, fresh := fresh1, createdTeams := 0,
            createdPlayers := 0, touchedTeams := 0, touchedPlayerTeams := 0,
            seen := [], tIdx := 0 }
        let st1 := syncLeagueLoop ctx sportLeagues st0
        let st2 :=
          if normalizeName sport.name == "soccer" &&
              decide (st1.touchedTeams < min maxTeams 40) then
            syncCountryLoop ctx popularCountries st1
          else st1
        let real := getRealCatalogForSport st2.store sportId
        let hasEntityData := 0 < real.teams.length || 0 < real.players.length
        let hasData := catalogHasData st2.store sportId
        let timedOut := isTimeUpAt ctx st2.tIdx
        let status :=
          if timedOut then "partial"
          else if hasEntityData then "ok"
          else if hasData then "partial"
          else "no_data"
        let newState : CatalogSyncState :=
          { lastAttemptAt := some clock.finish,
            lastSuccessAt := if hasData then some clock.finish else priorSuccess,
            status := status, timedOut := some timedOut, error := none,
            touchedTeams := st2.touchedTeams,
            touchedPlayerTeams := st2.touchedPlayerTeams,
            createdTeams := st2.createdTeams, createdPlayers := st2.createdPlayers,
            createdLeagues := createdLeagues }
        let store3 :=
          { st2.store with
            catalogSyncState := aset st2.store.catalogSyncState sportId newState }
        let store4 := pushSyncHistory store3
          { id := "sync_" ++ toString st2.fresh, createdAt := clock.finish,
            source := "sportsdb", entryType := "catalog", status := status,
            sportId := some sportId, error := none, timedOut := some timedOut,
            touchedTeams := some st2.touchedTeams,
            touchedPlayerTeams := some st2.touchedPlayerTeams,
            createdTeams := some st2.createdTeams,
            createdPlayers := some st2.createdPlayers,
            createdLeagues := some createdLeagues }
        (store4,
         { ok := true, reason := none, skipped := false, status := some status,
           timedOut := some timedOut, error := none,
           createdTeams := st2.createdTeams, createdPlayers := st2.createdPlayers,
           createdLeagues := createdLeagues, touchedTeams := some st2.touchedTeams,
           touchedPlayerTeams := some st2.touchedPlayerTeams })

/-- `syncSportCatalogFromSportsDb(store, sportId, options)`: resolve the
option bag (`Number(options.x || default)`), then run. -/
def syncSportCatalogFromSportsDb (store : Store) (sportId : String)
    (opts : SyncOptions) (provider : Provider) (clock : Clock) (fresh0 : Nat) :
    Store × SyncResult :=
  syncSportCatalogResolved store sportId opts.force
    (resolveOpt opts.maxTeams 120) (resolveOpt opts.maxLeagues 8)
    (resolveOpt opts.playersPerTeamCap 20) (resolveOpt opts.maxPlayerTeams 24)
    (resolveOpt opts.maxDurationMs 12000) (resolveOpt opts.cooldownMs 900000)
    provider clock fresh0

/-! ## Feed cache write (lines 867-881 of the `/api/home/feed` handler) -/

/-- Stable insertion into a list sorted by descending `fetchedAt` (ties keep
earlier elements first), used to model the stable JS
`entries.sort((a, b) => bTime - aTime)`. -/
def insertByFetchedDesc (x : String × FeedCacheEntry) :
    List (String × FeedCacheEntry) → List (String × FeedCacheEntry)
  | [] => [x]
  | y :: ys =>
      if x.2.fetchedAt < y.2.fetchedAt then y :: insertByFetchedDesc x ys
      else x :: y :: ys

/-- Stable sort by descending `fetchedAt`. -/
def sortByFetchedDesc : List (String × FeedCacheEntry) → List (String × FeedCacheEntry)
  | [] => []
  | x :: xs => insertByFetchedDesc x (sortByFetchedDesc xs)

/-- One live-refresh cache write for one sport: assign the preference key
(replace in place or append), sort entries newest-first, keep 8
(`Object.fromEntries(entries.slice(0, 8))`). -/
def writeFeedCacheEntry (sportCache : List (String × FeedCacheEntry))
    (preferenceKey : String) (entry : FeedCacheEntry) :
    List (String × FeedCacheEntry) :=
  (sortByFetchedDesc (aset sportCache preferenceKey entry)).take 8

/-! ## Interest-saving handlers (the store transforms of their success
paths) -/

/-- `getEntitySportId(store, entityType, entityId)`; an empty `sportId`
string is falsy in JS and becomes `null`. -/
def getEntitySportId (store : Store) (t : EntityType) (entityId : String) :
    Option String :=
  let raw : Option String :=
    match t with
    | .team => (store.teams.find? (fun x => x.id == entityId)).map (·.sportId)
    | .player => (store.players.find? (fun x => x.id == entityId)).map (·.sportId)
    | .league => (store.leagues.find? (fun x => x.id == entityId)).map (·.sportId)
    | .sport => none
  raw.bind (fun s => if s = "" then none else some s)

/-- `upsertUserFollows(store, userId, items)`: push each item not already
followed, de-duplicating within the call; `now` and `fresh0` model the
shared timestamp and the random follow ids. -/
def upsertUserFollows (store : Store) (userId : String)
    (items : List (EntityType × String)) (now : Nat) (fresh0 : Nat) : Store :=
  let existing := (store.follows.filter (fun f => f.userId == userId)).map
    (fun f => (f.entityType, f.entityId))
  let step := items.foldl
    (fun (acc : List Follow × List (EntityType × String) × Nat) item =>
      if acc.2.1.contains item then acc
      else
        (acc.1 ++ [{ id := "fol_" ++ toString acc.2.2, userId := userId,
                     entityType := item.1, entityId := item.2, createdAt := now }],
         acc.2.1 ++ [item], acc.2.2 + 1))
    (store.follows, existing, fresh0)
  { store with follows := step.1 }

/-- Store transform of the `POST /api/me/sports` success path: drop the
user's sport follows and any team/player/league follows outside the newly
selected sports, re-add the sports in order, record the explicit order, and
reset the whole feed cache. -/
def saveMySports (store : Store) (userId : String) (sportIds : List String)
    (now : Nat) (fresh0 : Nat) : Store :=
  let follows1 := store.follows.filter (fun f =>
    if f.userId != userId then true
    else
      match f.entityType with
      | .sport => false
      | .team | .player | .league =>
          match getEntitySportId store f.entityType f.entityId with
          | none => false
          | some sid => sportIds.contains sid)
  let newFollows := sportIds.enum.map (fun p =>
    { id := "fol_" ++ toString (fresh0 + p.1), userId := userId,
      entityType := EntityType.sport, entityId := p.2,
      createdAt := now + p.1 : Follow })
  { store with
      follows := follows1 ++ newFollows,
      userSportOrder := aset store.userSportOrder userId sportIds,
      feedCacheBySport := [] }

/-- Store transform of the `POST /api/onboarding/interests` success path:
replace all the user's follows with the submitted interests, record the
sport order, and reset the whole feed cache. -/
def saveOnboardingInterests (store : Store) (userId : String)
    (sportIds teamIds playerIds leagueIds : List String) (now : Nat)
    (fresh0 : Nat) : Store :=
  let kept := store.follows.filter (fun f => f.userId != userId)
  let mkFollows := fun (t : EntityType) (ids : List String) (base : Nat) =>
    ids.enum.map (fun p =>
      { id := "fol_" ++ toString (base + p.1), userId := userId,
        entityType := t, entityId := p.2, createdAt := now : Follow })
  let newFollows :=
    mkFollows EntityType.sport sportIds fresh0 ++
    mkFollows EntityType.team teamIds (fresh0 + sportIds.length) ++
    mkFollows EntityType.player playerIds (fresh0 + sportIds.length + teamIds.length) ++
    mkFollows EntityType.league leagueIds
      (fresh0 + sportIds.length + teamIds.length + playerIds.length)
  { store with
      follows := kept ++ newFollows,
      userSportOrder := aset store.userSportOrder userId sportIds,
      feedCacheBySport := [] }

/-- Store transform of the `POST /api/sports/:id/interests` success path:
replace the user's team/player/league follows within this sport's real
catalog by the submitted ones, and delete only this sport's feed cache
entry map. -/
def saveSportInterests (store : Store) (userId : String) (sportId : String)
    (teamIds playerIds leagueIds : List String) (now : Nat) (fresh0 : Nat) :
    Store :=
  let real := getRealCatalogForSport store sportId
  let validTeamIds := real.teams.map (·.id)
  let validPlayerIds := real.players.map (·.id)
  let validLeagueIds := real.leagues.map (·.id)
  let follows1 := store.follows.filter (fun f =>
    if f.userId != userId then true
    else
      match f.entityType with
      | .team => !(validTeamIds.contains f.entityId)
      | .player => !(validPlayerIds.contains f.entityId)
      | .league => !(validLeagueIds.contains f.entityId)
      | .sport => true)
  let items :=
    teamIds.map (fun i => (EntityType.team, i)) ++
    playerIds.map (fun i => (EntityType.player, i)) ++
    leagueIds.map (fun i => (EntityType.league, i))
  let store2 := upsertUserFollows { store with follows := follows1 } userId items now fresh0
  { store2 with feedCacheBySport := aerase store2.feedCacheBySport sportId }

/-! ## News RSS text extraction (`extractText`, lines 194-203) -/

/-- Prefix test between character lists. -/
def matchesAt : List Char → List Char → Bool
  | [], _ => true
  | _ :: _, [] => false
  | p :: ps, c :: cs => p == c && matchesAt ps cs

/-- Index of the first occurrence of `pat` in the text, if any. -/
def findSubIdx (pat : List Char) : List Char → Option Nat
  | [] => if matchesAt pat [] then some 0 else none
  | c :: cs =>
      if matchesAt pat (c :: cs) then some 0
      else (findSubIdx pat cs).map (· + 1)

/-- Prefix test against a list of character predicates (a regex branch of
single-character positions). -/
def matchesClassAt : List (Char → Bool) → List Char → Bool
  | [], _ => true
  | _ :: _, [] => false
  | p :: ps, c :: cs => p c && matchesClassAt ps cs

/-- Fuel-driven scanner for `replaceAllClass`; the fuel is an upper bound
on the remaining text length, so it never runs out. -/
def replaceAllClassFuel (pat : List (Char → Bool)) (repl : List Char) :
    Nat → List Char → List Char
  | 0, l => l
  | fuel + 1, l =>
      match l with
      | [] => []
      | c :: cs =>
          if 0 < pat.length ∧ matchesClassAt pat (c :: cs) = true then
            repl ++ replaceAllClassFuel pat repl fuel (cs.drop (pat.length - 1))
          else c :: replaceAllClassFuel pat repl fuel cs

/-- Global leftmost non-overlapping replacement of a predicate pattern
(models `String.prototype.replace` with a `g` regex of fixed length). -/
def replaceAllClass (pat : List (Char → Bool)) (repl : List Char)
    (l : List Char) : List Char :=
  replaceAllClassFuel pat repl l.length l

/-- Fixed-string global replacement. -/
def replaceAllStr (pat repl : String) (l : List Char) : List Char :=
  replaceAllClass (pat.data.map (fun a => fun c => a == c)) repl.data l

/-- The character class `[CDATA\[|]` that the broken regex literal
`/<!\\[CDATA\\[|\\]\\]>/` actually contains (its doubled backslashes are
escaped-backslash matchers, so `[` opens a class holding
`C D A T A \ [ |`). -/
def brokenCdataClass (c : Char) : Bool :=
  c == 'C' || c == 'D' || c == 'A' || c == 'T' || c == '\\' || c == '[' || c == '|'

/-- The single branch the regex literal on line 198 denotes:
`<` `!` `\` `[CDATA\[|]` `\` `]` `>` (seven positions). It can only ever
match text containing literal backslashes, never `<![CDATA[` or `]]>`. -/
def brokenCdataPat : List (Char → Bool) :=
  [fun c => c == '<', fun c => c == '!', fun c => c == '\\',
   brokenCdataClass,
   fun c => c == '\\', fun c => c == ']', fun c => c == '>']

/-- `extractText(xml, tag)`: take the text between the first
case-insensitive `<tag>` and the following `</tag>`, apply the (broken)
CDATA strip, unescape `&amp;` `&lt;` `&gt;`, trim. -/
def extractText (xml : String) (tag : String) : String :=
  let hay := xml.data
  let lhay := hay.map Char.toLower
  let openTag := ('<' :: tag.data ++ ['>']).map Char.toLower
  let closeTag := ('<' :: '/' :: tag.data ++ ['>']).map Char.toLower
  match findSubIdx openTag lhay with
  | none => ""
  | some i =>
    let start := i + openTag.length
    match findSubIdx closeTag (lhay.drop start) with
    | none => ""
    | some j =>
      let content := (hay.drop start).take j
      String.mk (trimChars
        (replaceAllStr "&gt;" ">"
          (replaceAllStr "&lt;" "<"
            (replaceAllStr "&amp;" "&"
              (replaceAllClass brokenCdataPat [] content)))))

/-! ## Sequences of merge upserts -/

/-- One Merge Engine upsert invocation with its scoping arguments. -/
inductive MergeOp where
  | sport (row : SportsDbSportRow)
  | league (row : SportsDbLeagueRow)
  | team (sportId : String) (row : SportsDbTeamRow)
  | player (sportId : String) (teamId : Option String) (row : SportsDbPlayerRow)
deriving Repr, DecidableEq

/-- Apply one upsert, threading the fresh-id counter. -/
def applyMergeOp (store : Store) (fresh : Nat) : MergeOp → Store × Nat
  | .sport row =>
      ((upsertSportFromSportsDb store row ("sp_" ++ toString fresh)).1, fresh + 1)
  | .league row =>
      ((upsertLeagueFromSportsDb store row ("lg_" ++ toString fresh)).1, fresh + 1)
  | .team sid row =>
      ((upsertTeamFromSportsDb store sid row ("tm_" ++ toString fresh)).1, fresh + 1)
  | .player sid tid row =>
      ((upsertPlayerFromSportsDb store sid tid row ("pl_" ++ toString fresh)).1, fresh + 1)

/-- Apply a row set (one upsert per row, in order). -/
def applyMergeOps (store : Store) (fresh : Nat) : List MergeOp → Store × Nat
  | [] => (store, fresh)
  | op :: rest =>
      let r := applyMergeOp store fresh op
      applyMergeOps r.1 r.2 rest

/-- The four entity-record counts of a store. -/
def entityCounts (store : Store) : Nat × Nat × Nat × Nat :=
  (store.sports.length, store.leagues.length, store.teams.length,
   store.players.length)

/-- A store with every collection empty. -/
def emptyStore : Store :=
  { sports := [], leagues := [], teams := [], players := [], follows := [],
    userSportOrder := [], syncHistory := [], catalogSyncState := [],
    feedCacheBySport := [] }

/-! ## Helper lemmas -/

theorem updateFirst_length {α : Type} (p : α → Bool) (f : α → α) (l : List α) :
    (updateFirst p f l).length = l.length := by
  induction l with
  | nil => rfl
  | cons x xs ih =>
    simp only [updateFirst]
    split <;> simp [ih]

theorem updateFirst_eq_of_id {α : Type} (f : α → α) (hf : ∀ a, f a = a)
    (p : α → Bool) (l : List α) : updateFirst p f l = l := by
  induction l with
  | nil => rfl
  | cons x xs ih =>
    simp only [updateFirst]
    split <;> simp [hf, ih]

theorem updateFirst_map_eq {α β : Type} {f : α → α} {g : α → β}
    (hg : ∀ a, g (f a) = g a) (p : α → Bool) (l : List α) :
    (updateFirst p f l).map g = l.map g := by
  induction l with
  | nil => rfl
  | cons x xs ih =>
    simp only [updateFirst]
    split <;> simp [hg, ih]

theorem updateFirst_forall2 {α : Type} {R : α → α → Prop} {f : α → α}
    (hrefl : ∀ a, R a a) (hf : ∀ a, R a (f a)) (p : α → Bool) (l : List α) :
    List.Forall₂ R l (updateFirst p f l) := by
  induction l with
  | nil => exact List.Forall₂.nil
  | cons x xs ih =>
    simp only [updateFirst]
    split
    · exact List.Forall₂.cons (hf x) (List.forall₂_same.mpr (fun y _ => hrefl y))
    · exact List.Forall₂.cons (hrefl x) ih

theorem mem_updateFirst {α : Type} {p : α → Bool} {f : α → α} {l : List α}
    {z : α} (hz : z ∈ updateFirst p f l) : z ∈ l ∨ ∃ y ∈ l, z = f y := by
  induction l with
  | nil => simp [updateFirst] at hz
  | cons x xs ih =>
    simp only [updateFirst] at hz
    by_cases hx : p x = true
    · rw [if_pos hx] at hz
      rcases List.mem_cons.mp hz with h | h
      · exact Or.inr ⟨x, List.mem_cons_self x xs, h⟩
      · exact Or.inl (List.mem_cons_of_mem x h)
    · rw [if_neg hx] at hz
      rcases List.mem_cons.mp hz with h | h
      · exact Or.inl (h ▸ List.mem_cons_self x xs)
      · rcases ih h with h' | ⟨y, hy, hyz⟩
        · exact Or.inl (List.mem_cons_of_mem x h')
        · exact Or.inr ⟨y, List.mem_cons_of_mem x hy, hyz⟩

theorem pairwise_updateFirst {α : Type} {R : α → α → Prop} {f : α → α}
    {l : List α} (h : List.Pairwise R l)
    (hleft : ∀ a b, R a b → R (f a) b) (hright : ∀ a b, R a b → R a (f b))
    (p : α → Bool) : List.Pairwise R (updateFirst p f l) := by
  induction l with
  | nil => exact List.Pairwise.nil
  | cons x xs ih =>
    rcases List.pairwise_cons.mp h with ⟨hx, hxs⟩
    simp only [updateFirst]
    split
    · exact List.pairwise_cons.mpr ⟨fun y hy => hleft x y (hx y hy), hxs⟩
    · refine List.pairwise_cons.mpr ⟨fun z hz => ?_, ih hxs⟩
      rcases mem_updateFirst hz with h' | ⟨y, hy, rfl⟩
      · exact hx z h'
      · exact hright x y (hx y hy)

theorem alookup_aset_self {α : Type} (m : List (String × α)) (k : String)
    (v : α) : alookup (aset m k v) k = some v := by
  induction m with
  | nil => simp [aset, alookup, List.find?]
  | cons p rest ih =>
    simp only [aset]
    split
    · simp [alookup, List.find?]
    · rename_i hne
      simpa [alookup, List.find?, hne] using ih

theorem alookup_aerase {α : Type} (m : List (String × α)) (k k' : String)
    (hnodup : (m.map Prod.fst).Nodup) :
    alookup (aerase m k) k' = if k' == k then none else alookup m k' := by
  induction m with
  | nil => simp [aerase, alookup, List.find?]
  | cons p rest ih =>
    simp only [List.map_cons, List.nodup_cons] at hnodup
    simp only [aerase]
    by_cases hpk : p.1 == k
    · rw [if_pos hpk]
      by_cases hk' : k' == k
      · rw [if_pos hk']
        have hkk : p.1 = k := by simpa using hpk
        have hk'2 : k' = k := by simpa using hk'
        subst hk'2
        have : ∀ q ∈ rest, ¬(q.1 == k') = true := by
          intro q hq hbad
          have hq1 : q.1 = k' := by simpa using hbad
          exact hnodup.1 (List.mem_map.mpr ⟨q, hq, hq1.trans hkk.symm⟩)
        simp only [alookup]
        rw [List.find?_eq_none.mpr this]
        rfl
      · rw [if_neg hk']
        have hkk : p.1 = k := by simpa using hpk
        have : ¬(p.1 == k') = true := by
          simp only [beq_iff_eq] at hk' ⊢
          intro h
          exact hk' (by rw [← h, hkk])
        simp [alookup, List.find?, this]
    · rw [if_neg hpk]
      by_cases hk' : k' == k
      · rw [if_pos hk']
        have hk'2 : k' = k := by simpa using hk'
        subst hk'2
        have hpk' : ¬(p.1 == k') = true := hpk
        simp only [alookup, List.find?, hpk']
        have := ih hnodup.2
        rw [if_pos (by simp)] at this
        simpa [alookup] using this
      · rw [if_neg hk']
        by_cases hpk' : p.1 == k'
        · simp [alookup, List.find?, hpk']
        · simp only [alookup, List.find?, hpk']
          have := ih hnodup.2
          rw [if_neg hk'] at this
          simpa [alookup] using this

/-! ## Claim C9 -/

/-- C9: the tag-scoped text extraction does NOT remove CDATA wrappers: the
regex literal `/<!\\[CDATA\\[|\\]\\]>/g` double-escapes its backslashes, so
a title delivered as `<![CDATA[A &amp; B]]>` comes back as
`<![CDATA[A & B]]>` (entities unescaped, CDATA intact), not `A & B`. -/
theorem extractText_keeps_cdata_wrapper :
    extractText "<item><title><![CDATA[A &amp; B]]></title></item>" "title" =
      "<![CDATA[A & B]]>" ∧
    extractText "<item><title><![CDATA[A &amp; B]]></title></item>" "title" ≠
      "A & B" := by
  constructor
  · rfl
  · decide

/-! ## Claim C10 -/

/-- C10: saving a sport selection (`POST /api/me/sports`) or onboarding
interests (`POST /api/onboarding/interests`) replaces the whole
`feedCacheBySport` map with an empty object — every sport's and every
user's cached variants are discarded — while the per-sport interests
endpoint (`POST /api/sports/:id/interests`) deletes only that sport's
entry map and leaves every other sport's entries unchanged. -/
theorem interestSave_cacheEffects (store : Store) (userId sportId : String)
    (sportIds teamIds playerIds leagueIds : List String) (now fresh0 : Nat)
    (hkeys : (store.feedCacheBySport.map Prod.fst).Nodup) :
    (saveMySports store userId sportIds now fresh0).feedCacheBySport = [] ∧
    (saveOnboardingInterests store userId sportIds teamIds playerIds
        leagueIds now fresh0).feedCacheBySport = [] ∧
    ∀ sid : String,
      alookup (saveSportInterests store userId sportId teamIds playerIds
          leagueIds now fresh0).feedCacheBySport sid =
        if sid == sportId then none else alookup store.feedCacheBySport sid := by
  refine ⟨rfl, rfl, fun sid => ?_⟩
  exact alookup_aerase store.feedCacheBySport sportId sid hkeys

/-- Concrete fixture for the C10 witness. -/
def c10Store : Store :=
  { emptyStore with feedCacheBySport :=
      [("s1", [("k", { fetchedAt := 1, highlights := [], news := [] })]),
       ("s2", [])] }

/-- C10 witness: the cache effects at a concrete two-sport cache. -/
theorem interestSave_cacheEffects_witness :
    (c10Store.feedCacheBySport.map Prod.fst).Nodup ∧
    (saveMySports c10Store "u" ["s1"] 5 0).feedCacheBySport = [] ∧
    (saveOnboardingInterests c10Store "u" ["s1"] [] [] [] 5 0).feedCacheBySport = [] ∧
    alookup (saveSportInterests c10Store "u" "s1" [] [] [] 5 0).feedCacheBySport
      "s1" = none ∧
    alookup (saveSportInterests c10Store "u" "s1" [] [] [] 5 0).feedCacheBySport
      "s2" = some [] := by
  have h := interestSave_cacheEffects c10Store "u" "s1" ["s1"] [] [] [] 5 0
    (by decide)
  refine ⟨by decide, h.1, h.2.1, (h.2.2 "s1").trans (by decide),
    (h.2.2 "s2").trans (by decide)⟩

/-! ## Claim C5 -/

/-- C5 amended: `maxDurationMs: 0` is falsy, so `Number(options.maxDurationMs
|| 12000)` replaces it with the 12000 ms default — a zero budget cannot be
requested, and a call with 0 behaves exactly like a call with 12000. -/
theorem syncZeroDuration_eq_default (store : Store) (sportId : String)
    (opts : SyncOptions) (provider : Provider) (clock : Clock) (fresh0 : Nat) :
    syncSportCatalogFromSportsDb store sportId
        { opts with maxDurationMs := some 0 } provider clock fresh0 =
      syncSportCatalogFromSportsDb store sportId
        { opts with maxDurationMs := some 12000 } provider clock fresh0 := rfl

/-- Concrete sport/store/provider/clock for the C5 counterexample. -/
def c5Store : Store :=
  { emptyStore with sports :=
      [{ id := "s1", name := "Basketball", slug := "basketball",
         isPopular := true, externalSource := none, externalId := none }] }

/-- A provider with one matching league holding one team. -/
def c5Provider : Provider :=
  { allLeagues := .ok
      [{ strLeague := "NBA", strSport := "Basketball", idLeague := "L1" }],
    searchTeamsByLeague := fun _ => .ok [{ strTeam := "Lakers", idTeam := "T1" }],
    lookupPlayers := fun _ => .ok [],
    searchTeamsByCountry := fun _ _ => .ok [] }

/-- A clock on which no time ever elapses. -/
def c5Clock : Clock := { now := 0, elapsed := fun _ => 0, finish := 0 }

/-- C5 counterexample: with `maxDurationMs: 0` the run still merges a team
(an iteration after the first time check) and reports `timedOut: false`,
because the 0 was swallowed by the `|| 12000` default. -/
theorem syncZeroDuration_cex :
    (syncSportCatalogFromSportsDb c5Store "s1"
        { force := true, maxDurationMs := some 0 } c5Provider c5Clock 0).2.timedOut
      = some false ∧
    (syncSportCatalogFromSportsDb c5Store "s1"
        { force := true, maxDurationMs := some 0 } c5Provider c5Clock 0).2.createdTeams
      = 1 := by
  constructor
  · rfl
  · rfl

/-! ## Claim C2 -/

/-- Provenance pair of a team record. -/
def teamProv (t : Team) : Option String × Option String :=
  (t.externalSource, t.externalId)

/-- Provenance pair of a league record. -/
def leagueProv (l : League) : Option String × Option String :=
  (l.externalSource, l.externalId)

/-- Provenance pair of a player record. -/
def playerProv (p : Player) : Option String × Option String :=
  (p.externalSource, p.externalId)

/-- Provenance pair of a sport record. -/
def sportProv (s : Sport) : Option String × Option String :=
  (s.externalSource, s.externalId)

/-- The pre-existing team of the C2 fixture, already carrying the
provenance pair `("sportsdb", "E1")`. -/
def c2TeamBeta : Team :=
  { id := "tA", sportId := "s1", name := "beta", slug := "beta",
    externalSource := some "sportsdb", externalId := some "E1" }

/-- Concrete fixture for the C2 counterexample: one team already carrying
the provenance pair `("sportsdb", "E1")`. -/
def c2Store : Store :=
  { emptyStore with teams := [c2TeamBeta] }

/-- C2 counterexample: an upsert whose row matches the existing team by
name and supplies external id `E2` OVERWRITES the existing pair
`("sportsdb", "E1")` with `("sportsdb", "E2")` — the record does not keep
its pair. -/
theorem upsertTeam_provenance_overwrite_cex :
    c2Store.teams.map teamProv = [(some "sportsdb", some "E1")] ∧
    ((upsertTeamFromSportsDb c2Store "s1"
        { strTeam := "beta", idTeam := "E2" } "tX").1.teams.map teamProv) =
      [(some "sportsdb", some "E2")] := by
  exact ⟨rfl, rfl⟩

/-- When `find?` locates a first match `x`, `updateFirst` rewrites the list
at exactly the match's position: the result is `l.set i (f x)`, so every
element other than the matched one is untouched. -/
theorem updateFirst_eq_set {α : Type} (p : α → Bool) (f : α → α)
    (l : List α) (x : α) (h : List.find? p l = some x) :
    ∃ i, ∃ hi : i < l.length, l.get ⟨i, hi⟩ = x ∧
      updateFirst p f l = l.set i (f x) := by
  induction l with
  | nil => simp [List.find?] at h
  | cons a as ih =>
    by_cases hpa : p a = true
    · rw [List.find?_cons_of_pos as hpa] at h
      obtain rfl := Option.some.inj h
      refine ⟨0, Nat.succ_pos _, rfl, ?_⟩
      simp [updateFirst, hpa]
    · rw [List.find?_cons_of_neg as hpa] at h
      obtain ⟨i, hi, hget, heq⟩ := ih h
      refine ⟨i + 1, Nat.succ_lt_succ hi, hget, ?_⟩
      simp [updateFirst, hpa, heq]

/-- A team upsert whose row has no external id never touches any existing
record's provenance. -/
theorem upsertTeam_prov_none (store : Store) (sportId : String)
    (row : SportsDbTeamRow) (fid : String)
    (h : strToOpt row.idTeam = none) :
    ((upsertTeamFromSportsDb store sportId row fid).1.teams.take
        store.teams.length).map teamProv = store.teams.map teamProv := by
  unfold upsertTeamFromSportsDb
  simp only [h]
  split
  · simp [List.take_length]
  · split
    · rename_i existing heq
      simp only
      rw [updateFirst_eq_of_id (teamApplyExt none) (fun a => rfl),
        List.take_length]
    · simp [List.take_left]

/-- A team upsert whose row supplies external id `e` and matches an
existing record overwrites that record's provenance pair to exactly
`("sportsdb", e)` in place: the result list equals the old list with only
the matched position replaced, so every other record is untouched. -/
theorem upsertTeam_overwrites (store : Store) (sportId : String)
    (row : SportsDbTeamRow) (fid : String) (e : String) (t : Team)
    (hext : strToOpt row.idTeam = some e)
    (hname : ¬ trimString row.strTeam = "")
    (hfound : store.teams.find? (teamMatchesRow sportId (some e)
      (normalizeName (trimString row.strTeam))) = some t) :
    ∃ i, ∃ hi : i < store.teams.length,
      store.teams.get ⟨i, hi⟩ = t ∧
      (upsertTeamFromSportsDb store sportId row fid).1.teams =
        store.teams.set i
          { t with externalSource := some "sportsdb", externalId := some e } := by
  unfold upsertTeamFromSportsDb
  dsimp only
  rw [hext, if_neg hname, hfound]
  obtain ⟨i, hi, hget, heq⟩ := updateFirst_eq_set
    (teamMatchesRow sportId (some e) (normalizeName (trimString row.strTeam)))
    (teamApplyExt (some e)) store.teams t hfound
  exact ⟨i, hi, hget, heq⟩

/-- A team upsert whose row supplies external id `e` and matches no
existing record appends one new record carrying `("sportsdb", e)` and
leaves every existing record literally unchanged. -/
theorem upsertTeam_creates (store : Store) (sportId : String)
    (row : SportsDbTeamRow) (fid : String) (e : String)
    (hext : strToOpt row.idTeam = some e)
    (hname : ¬ trimString row.strTeam = "")
    (hnone : store.teams.find? (teamMatchesRow sportId (some e)
      (normalizeName (trimString row.strTeam))) = none) :
    ∃ r, (upsertTeamFromSportsDb store sportId row fid).1.teams =
      store.teams ++ [r] ∧ teamProv r = (some "sportsdb", some e) := by
  unfold upsertTeamFromSportsDb
  dsimp only
  rw [hext, if_neg hname, hnone]
  exact ⟨_, rfl, rfl⟩

/-- A league upsert whose row has no external id never touches any existing
record's provenance. -/
theorem upsertLeague_prov_none (store : Store) (row : SportsDbLeagueRow)
    (fid : String) (h : strToOpt row.idLeague = none) :
    ((upsertLeagueFromSportsDb store row fid).1.leagues.take
        store.leagues.length).map leagueProv = store.leagues.map leagueProv := by
  unfold upsertLeagueFromSportsDb
  simp only [h]
  split
  · simp [List.take_length]
  · split
    · simp [List.take_length]
    · split
      · simp only
        rw [updateFirst_eq_of_id (leagueApplyExt none) (fun a => rfl),
          List.take_length]
      · simp [List.take_left]

/-- A league upsert whose sport lookup succeeds and whose row supplies
external id `e` and matches an existing league overwrites that league's
provenance pair to exactly `("sportsdb", e)` in place: the result list
equals the old list with only the matched position replaced. -/
theorem upsertLeague_overwrites (store : Store) (row : SportsDbLeagueRow)
    (fid : String) (e : String) (sport : Sport) (lg : League)
    (hext : strToOpt row.idLeague = some e)
    (hname : ¬ trimString row.strLeague = "")
    (hsn : ¬ trimString row.strSport = "")
    (hsport : store.sports.find?
      (fun s => normalizeName s.name == normalizeName (trimString row.strSport))
      = some sport)
    (hfound : store.leagues.find? (leagueMatchesRow sport.id (some e)
      (normalizeName (trimString row.strLeague))) = some lg) :
    ∃ i, ∃ hi : i < store.leagues.length,
      store.leagues.get ⟨i, hi⟩ = lg ∧
      (upsertLeagueFromSportsDb store row fid).1.leagues =
        store.leagues.set i
          { lg with externalSource := some "sportsdb", externalId := some e } := by
  unfold upsertLeagueFromSportsDb
  dsimp only
  rw [hext, if_neg (by simp [hname, hsn]), hsport]
  dsimp only
  rw [hfound]
  obtain ⟨i, hi, hget, heq⟩ := updateFirst_eq_set
    (leagueMatchesRow sport.id (some e) (normalizeName (trimString row.strLeague)))
    (leagueApplyExt (some e)) store.leagues lg hfound
  exact ⟨i, hi, hget, heq⟩

/-- A league upsert whose sport lookup succeeds and whose row supplies
external id `e` but matches no existing league appends one new league
carrying `("sportsdb", e)` and leaves every existing league unchanged. -/
theorem upsertLeague_creates (store : Store) (row : SportsDbLeagueRow)
    (fid : String) (e : String) (sport : Sport)
    (hext : strToOpt row.idLeague = some e)
    (hname : ¬ trimString row.strLeague = "")
    (hsn : ¬ trimString row.strSport = "")
    (hsport : store.sports.find?
      (fun s => normalizeName s.name == normalizeName (trimString row.strSport))
      = some sport)
    (hnone : store.leagues.find? (leagueMatchesRow sport.id (some e)
      (normalizeName (trimString row.strLeague))) = none) :
    ∃ r, (upsertLeagueFromSportsDb store row fid).1.leagues =
      store.leagues ++ [r] ∧ leagueProv r = (some "sportsdb", some e) := by
  unfold upsertLeagueFromSportsDb
  dsimp only
  rw [hext, if_neg (by simp [hname, hsn]), hsport]
  dsimp only
  rw [hnone]
  exact ⟨_, rfl, rfl⟩

/-- A league upsert whose sport lookup fails touches no league at all. -/
theorem upsertLeague_noSport (store : Store) (row : SportsDbLeagueRow)
    (fid : String)
    (hname : ¬ trimString row.strLeague = "")
    (hsn : ¬ trimString row.strSport = "")
    (hnone : store.sports.find?
      (fun s => normalizeName s.name == normalizeName (trimString row.strSport))
      = none) :
    (upsertLeagueFromSportsDb store row fid).1.leagues = store.leagues := by
  unfold upsertLeagueFromSportsDb
  dsimp only
  rw [if_neg (by simp [hname, hsn]), hnone]

/-- A player upsert whose row has no external id never touches any existing
record's provenance (it may update the matched player's team link). -/
theorem upsertPlayer_prov_none (store : Store) (sportId : String)
    (teamId : Option String) (row : SportsDbPlayerRow) (fid : String)
    (h : strToOpt row.idPlayer = none) :
    ((upsertPlayerFromSportsDb store sportId teamId row fid).1.players.take
        store.players.length).map playerProv =
      store.players.map playerProv := by
  unfold upsertPlayerFromSportsDb
  simp only [h]
  split
  · simp [List.take_length]
  · split
    · simp only
      rw [← updateFirst_length
        (playerMatchesRow sportId none (normalizeName (trimString row.strPlayer)))
        (playerApplyExt none teamId) store.players, List.take_length]
      exact updateFirst_map_eq
        (fun a => by cases teamId <;> rfl) _ _
    · simp [List.take_left]

/-- A player upsert whose row supplies external id `e` and matches an
existing record rewrites that record in place to `playerApplyExt (some e)
teamId` of it — provenance pair overwritten to exactly `("sportsdb", e)`,
team link updated when `teamId` is supplied — and the result list equals
the old list with only the matched position replaced. -/
theorem upsertPlayer_overwrites (store : Store) (sportId : String)
    (teamId : Option String) (row : SportsDbPlayerRow) (fid : String)
    (e : String) (pl : Player)
    (hext : strToOpt row.idPlayer = some e)
    (hname : ¬ trimString row.strPlayer = "")
    (hfound : store.players.find? (playerMatchesRow sportId (some e)
      (normalizeName (trimString row.strPlayer))) = some pl) :
    ∃ i, ∃ hi : i < store.players.length,
      store.players.get ⟨i, hi⟩ = pl ∧
      (upsertPlayerFromSportsDb store sportId teamId row fid).1.players =
        store.players.set i (playerApplyExt (some e) teamId pl) ∧
      playerProv (playerApplyExt (some e) teamId pl) =
        (some "sportsdb", some e) := by
  unfold upsertPlayerFromSportsDb
  dsimp only
  rw [hext, if_neg hname, hfound]
  obtain ⟨i, hi, hget, heq⟩ := updateFirst_eq_set
    (playerMatchesRow sportId (some e) (normalizeName (trimString row.strPlayer)))
    (playerApplyExt (some e) teamId) store.players pl hfound
  exact ⟨i, hi, hget, heq, by cases teamId <;> rfl⟩

/-- A player upsert whose row supplies external id `e` and matches no
existing record appends one new record carrying `("sportsdb", e)` and
leaves every existing record literally unchanged. -/
theorem upsertPlayer_creates (store : Store) (sportId : String)
    (teamId : Option String) (row : SportsDbPlayerRow) (fid : String)
    (e : String)
    (hext : strToOpt row.idPlayer = some e)
    (hname : ¬ trimString row.strPlayer = "")
    (hnone : store.players.find? (playerMatchesRow sportId (some e)
      (normalizeName (trimString row.strPlayer))) = none) :
    ∃ r, (upsertPlayerFromSportsDb store sportId teamId row fid).1.players =
      store.players ++ [r] ∧ playerProv r = (some "sportsdb", some e) := by
  unfold upsertPlayerFromSportsDb
  dsimp only
  rw [hext, if_neg hname, hnone]
  exact ⟨_, rfl, rfl⟩

/-- A sport upsert whose row has no external id never touches any existing
record's provenance. -/
theorem upsertSport_prov_none (store : Store) (row : SportsDbSportRow)
    (fid : String) (h : strToOpt row.idSport = none) :
    ((upsertSportFromSportsDb store row fid).1.sports.take
        store.sports.length).map sportProv = store.sports.map sportProv := by
  unfold upsertSportFromSportsDb
  simp only [h]
  split
  · simp [List.take_length]
  · split
    · simp only
      rw [updateFirst_eq_of_id (sportApplyExt none) (fun a => rfl),
        List.take_length]
    · simp [List.take_left]

/-- A sport upsert whose row supplies external id `e` and matches an
existing record overwrites that record's provenance pair to exactly
`("sportsdb", e)` in place: the result list equals the old list with only
the matched position replaced, so every other record is untouched. -/
theorem upsertSport_overwrites (store : Store) (row : SportsDbSportRow)
    (fid : String) (e : String) (sp : Sport)
    (hext : strToOpt row.idSport = some e)
    (hname : ¬ trimString row.strSport = "")
    (hfound : store.sports.find? (sportMatchesRow (some e)
      (normalizeName (trimString row.strSport))) = some sp) :
    ∃ i, ∃ hi : i < store.sports.length,
      store.sports.get ⟨i, hi⟩ = sp ∧
      (upsertSportFromSportsDb store row fid).1.sports =
        store.sports.set i
          { sp with externalSource := some "sportsdb", externalId := some e } := by
  unfold upsertSportFromSportsDb
  dsimp only
  rw [hext, if_neg hname, hfound]
  obtain ⟨i, hi, hget, heq⟩ := updateFirst_eq_set
    (sportMatchesRow (some e) (normalizeName (trimString row.strSport)))
    (sportApplyExt (some e)) store.sports sp hfound
  exact ⟨i, hi, hget, heq⟩

/-- A sport upsert whose row supplies external id `e` and matches no
existing record appends one new record carrying `("sportsdb", e)` and
leaves every existing record literally unchanged. -/
theorem upsertSport_creates (store : Store) (row : SportsDbSportRow)
    (fid : String) (e : String)
    (hext : strToOpt row.idSport = some e)
    (hname : ¬ trimString row.strSport = "")
    (hnone : store.sports.find? (sportMatchesRow (some e)
      (normalizeName (trimString row.strSport))) = none) :
    ∃ r, (upsertSportFromSportsDb store row fid).1.sports =
      store.sports ++ [r] ∧ sportProv r = (some "sportsdb", some e) := by
  unfold upsertSportFromSportsDb
  dsimp only
  rw [hext, if_neg hname, hnone]
  exact ⟨_, rfl, rfl⟩

/-- C2 amended: for every upsert, a row WITHOUT an external id never
modifies any existing record's provenance; a row WITH external id `e` that
matches an existing record overwrites that record's pair to exactly
`("sportsdb", e)` in place — even when the record already carried a
different pair — and the result list equals the old list with only the
matched position replaced (records other than the matched one are never
touched); a row with id `e` matching nothing appends one new record
carrying `("sportsdb", e)` after the untouched existing records. -/
theorem upsert_provenance_policy (store : Store) (sportId : String)
    (teamId : Option String) (teamRow : SportsDbTeamRow)
    (leagueRow : SportsDbLeagueRow) (playerRow : SportsDbPlayerRow)
    (sportRow : SportsDbSportRow) (fid : String) :
    (strToOpt teamRow.idTeam = none →
      ((upsertTeamFromSportsDb store sportId teamRow fid).1.teams.take
          store.teams.length).map teamProv = store.teams.map teamProv) ∧
    (∀ e, strToOpt teamRow.idTeam = some e →
      ¬ trimString teamRow.strTeam = "" →
      (∀ t, store.teams.find? (teamMatchesRow sportId (some e)
          (normalizeName (trimString teamRow.strTeam))) = some t →
        ∃ i, ∃ hi : i < store.teams.length,
          store.teams.get ⟨i, hi⟩ = t ∧
          (upsertTeamFromSportsDb store sportId teamRow fid).1.teams =
            store.teams.set i
              { t with externalSource := some "sportsdb", externalId := some e }) ∧
      (store.teams.find? (teamMatchesRow sportId (some e)
          (normalizeName (trimString teamRow.strTeam))) = none →
        ∃ r, (upsertTeamFromSportsDb store sportId teamRow fid).1.teams =
          store.teams ++ [r] ∧ teamProv r = (some "sportsdb", some e))) ∧
    (strToOpt leagueRow.idLeague = none →
      ((upsertLeagueFromSportsDb store leagueRow fid).1.leagues.take
          store.leagues.length).map leagueProv =
        store.leagues.map leagueProv) ∧
    (∀ e, strToOpt leagueRow.idLeague = some e →
      ¬ trimString leagueRow.strLeague = "" →
      ¬ trimString leagueRow.strSport = "" →
      (store.sports.find? (fun s =>
          normalizeName s.name == normalizeName (trimString leagueRow.strSport))
          = none →
        (upsertLeagueFromSportsDb store leagueRow fid).1.leagues =
          store.leagues) ∧
      (∀ sport, store.sports.find? (fun s =>
          normalizeName s.name == normalizeName (trimString leagueRow.strSport))
          = some sport →
        (∀ lg, store.leagues.find? (leagueMatchesRow sport.id (some e)
            (normalizeName (trimString leagueRow.strLeague))) = some lg →
          ∃ i, ∃ hi : i < store.leagues.length,
            store.leagues.get ⟨i, hi⟩ = lg ∧
            (upsertLeagueFromSportsDb store leagueRow fid).1.leagues =
              store.leagues.set i
                { lg with externalSource := some "sportsdb", externalId := some e }) ∧
        (store.leagues.find? (leagueMatchesRow sport.id (some e)
            (normalizeName (trimString leagueRow.strLeague))) = none →
          ∃ r, (upsertLeagueFromSportsDb store leagueRow fid).1.leagues =
            store.leagues ++ [r] ∧
            leagueProv r = (some "sportsdb", some e)))) ∧
    (strToOpt playerRow.idPlayer = none →
      ((upsertPlayerFromSportsDb store sportId teamId playerRow fid).1.players.take
          store.players.length).map playerProv =
        store.players.map playerProv) ∧
    (∀ e, strToOpt playerRow.idPlayer = some e →
      ¬ trimString playerRow.strPlayer = "" →
      (∀ pl, store.players.find? (playerMatchesRow sportId (some e)
          (normalizeName (trimString playerRow.strPlayer))) = some pl →
        ∃ i, ∃ hi : i < store.players.length,
          store.players.get ⟨i, hi⟩ = pl ∧
          (upsertPlayerFromSportsDb store sportId teamId playerRow fid).1.players =
            store.players.set i (playerApplyExt (some e) teamId pl) ∧
          playerProv (playerApplyExt (some e) teamId pl) =
            (some "sportsdb", some e)) ∧
      (store.players.find? (playerMatchesRow sportId (some e)
          (normalizeName (trimString playerRow.strPlayer))) = none →
        ∃ r, (upsertPlayerFromSportsDb store sportId teamId playerRow fid).1.players
          = store.players ++ [r] ∧ playerProv r = (some "sportsdb", some e))) ∧
    (strToOpt sportRow.idSport = none →
      ((upsertSportFromSportsDb store sportRow fid).1.sports.take
          store.sports.length).map sportProv = store.sports.map sportProv) ∧
    (∀ e, strToOpt sportRow.idSport = some e →
      ¬ trimString sportRow.strSport = "" →
      (∀ sp, store.sports.find? (sportMatchesRow (some e)
          (normalizeName (trimString sportRow.strSport))) = some sp →
        ∃ i, ∃ hi : i < store.sports.length,
          store.sports.get ⟨i, hi⟩ = sp ∧
          (upsertSportFromSportsDb store sportRow fid).1.sports =
            store.sports.set i
              { sp with externalSource := some "sportsdb", externalId := some e }) ∧
      (store.sports.find? (sportMatchesRow (some e)
          (normalizeName (trimString sportRow.strSport))) = none →
        ∃ r, (upsertSportFromSportsDb store sportRow fid).1.sports =
          store.sports ++ [r] ∧ sportProv r = (some "sportsdb", some e))) :=
  ⟨upsertTeam_prov_none store sportId teamRow fid,
   fun e he hn =>
     ⟨fun t ht => upsertTeam_overwrites store sportId teamRow fid e t he hn ht,
      fun hno => upsertTeam_creates store sportId teamRow fid e he hn hno⟩,
   upsertLeague_prov_none store leagueRow fid,
   fun e he hn hsn =>
     ⟨fun hns => upsertLeague_noSport store leagueRow fid hn hsn hns,
      fun sport hsp =>
        ⟨fun lg hlg =>
           upsertLeague_overwrites store leagueRow fid e sport lg he hn hsn hsp hlg,
         fun hno =>
           upsertLeague_creates store leagueRow fid e sport he hn hsn hsp hno⟩⟩,
   upsertPlayer_prov_none store sportId teamId playerRow fid,
   fun e he hn =>
     ⟨fun pl hpl =>
        upsertPlayer_overwrites store sportId teamId playerRow fid e pl he hn hpl,
      fun hno => upsertPlayer_creates store sportId teamId playerRow fid e he hn hno⟩,
   upsertSport_prov_none store sportRow fid,
   fun e he hn =>
     ⟨fun sp hsp => upsertSport_overwrites store sportRow fid e sp he hn hsp,
      fun hno => upsertSport_creates store sportRow fid e he hn hno⟩⟩

/-- C2 witness: the provenance policy applied at concrete rows against the
concrete one-team store — a row without an external id changes no pair,
and the row `{ strTeam: "beta", idTeam: "E2" }` matches the stored team
and rewrites exactly position 0, overwriting `("sportsdb", "E1")` with
`("sportsdb", "E2")`. -/
theorem upsert_provenance_policy_witness :
    strToOpt ("" : String) = none ∧
    ((upsertTeamFromSportsDb c2Store "s1"
        { strTeam := "x", idTeam := "" } "f").1.teams.take
          c2Store.teams.length).map teamProv = c2Store.teams.map teamProv ∧
    strToOpt "E2" = some "E2" ∧
    ¬ trimString "beta" = "" ∧
    c2Store.teams.find? (teamMatchesRow "s1" (some "E2")
      (normalizeName (trimString "beta"))) = some c2TeamBeta ∧
    (upsertTeamFromSportsDb c2Store "s1"
        { strTeam := "beta", idTeam := "E2" } "f").1.teams =
      c2Store.teams.set 0
        { c2TeamBeta with externalSource := some "sportsdb", externalId := some "E2" } ∧
    teamProv
        { c2TeamBeta with externalSource := some "sportsdb", externalId := some "E2" } =
      (some "sportsdb", some "E2") := by
  refine ⟨by decide, ?_, by decide, by decide, rfl, ?_, rfl⟩
  · exact (upsert_provenance_policy c2Store "s1" none
      { strTeam := "x", idTeam := "" }
      { strLeague := "", strSport := "", idLeague := "" }
      { strPlayer := "", idPlayer := "" }
      { strSport := "", idSport := "" } "f").1 (by decide)
  · obtain ⟨i, hi, hget, heq⟩ :=
      ((upsert_provenance_policy c2Store "s1" none
        { strTeam := "beta", idTeam := "E2" }
        { strLeague := "", strSport := "", idLeague := "" }
        { strPlayer := "", idPlayer := "" }
        { strSport := "", idSport := "" } "f").2.1 "E2" (by decide)
          (by decide)).1 c2TeamBeta rfl
    have hi1 : i < 1 := hi
    have hi0 : i = 0 := Nat.lt_one_iff.mp hi1
    subst hi0
    exact heq

/-! ## Claim C7 -/

/-- C7: a sync returning `reason: "provider_error"` merged nothing — the
only provider call not caught inside the loops is the initial
`all_leagues.php` fetch, which precedes all merging — and conversely a run
that created any entity reports `ok: true`. -/
theorem syncProviderError_atomic (store : Store) (sportId : String)
    (opts : SyncOptions) (provider : Provider) (clock : Clock) (fresh0 : Nat) :
    (((syncSportCatalogFromSportsDb store sportId opts provider clock
        fresh0).2.reason = some "provider_error") →
      (syncSportCatalogFromSportsDb store sportId opts provider clock
        fresh0).2.createdTeams = 0 ∧
      (syncSportCatalogFromSportsDb store sportId opts provider clock
        fresh0).2.createdPlayers = 0 ∧
      (syncSportCatalogFromSportsDb store sportId opts provider clock
        fresh0).2.createdLeagues = 0 ∧
      (syncSportCatalogFromSportsDb store sportId opts provider clock
        fresh0).2.ok = false) ∧
    (0 < (syncSportCatalogFromSportsDb store sportId opts provider clock
          fresh0).2.createdTeams +
        (syncSportCatalogFromSportsDb store sportId opts provider clock
          fresh0).2.createdPlayers +
        (syncSportCatalogFromSportsDb store sportId opts provider clock
          fresh0).2.createdLeagues →
      (syncSportCatalogFromSportsDb store sportId opts provider clock
        fresh0).2.ok = true) := by
  unfold syncSportCatalogFromSportsDb syncSportCatalogResolved
  rcases hfind : store.sports.find? (fun s => s.id == sportId) with _ | sport
  · simp [hfind]
  · simp only [hfind]
    rcases hskip : syncSkipCheck store sportId opts.force
        (resolveOpt opts.cooldownMs 900000) clock.now with _ | _
    · rcases hprov : provider.allLeagues with msg | rows
      · simp [hprov]
      · simp [hprov]
    · simp

/-- Concrete fixtures for the C7 witness: a failing `all_leagues.php`. -/
def c7Store : Store :=
  { emptyStore with sports :=
      [{ id := "s1", name := "Basketball", slug := "basketball",
         isPopular := true, externalSource := none, externalId := none }] }

/-- A provider whose `all_leagues.php` fetch throws. -/
def c7Provider : Provider :=
  { allLeagues := .error "boom",
    searchTeamsByLeague := fun _ => .ok [],
    lookupPlayers := fun _ => .ok [],
    searchTeamsByCountry := fun _ _ => .ok [] }

/-- A clock for the C7 witness run. -/
def c7Clock : Clock := { now := 0, elapsed := fun _ => 0, finish := 0 }

/-- C7 witness: a concrete provider-error run reports
`reason: "provider_error"` and merged nothing. -/
theorem syncProviderError_atomic_witness :
    (syncSportCatalogFromSportsDb c7Store "s1" { force := true } c7Provider
      c7Clock 0).2.reason = some "provider_error" ∧
    (syncSportCatalogFromSportsDb c7Store "s1" { force := true } c7Provider
      c7Clock 0).2.createdTeams = 0 ∧
    (syncSportCatalogFromSportsDb c7Store "s1" { force := true } c7Provider
      c7Clock 0).2.createdPlayers = 0 ∧
    (syncSportCatalogFromSportsDb c7Store "s1" { force := true } c7Provider
      c7Clock 0).2.createdLeagues = 0 ∧
    (syncSportCatalogFromSportsDb c7Store "s1" { force := true } c7Provider
      c7Clock 0).2.ok = false := by
  have h := (syncProviderError_atomic c7Store "s1" { force := true } c7Provider
    c7Clock 0).1 (by rfl)
  exact ⟨rfl, h.1, h.2.1, h.2.2.1, h.2.2.2⟩

/-! ## Claim C4 -/

/-- Characterization of the cooldown-skip condition: it requires BOTH at
least 40 provenance-backed teams AND at least 80 provenance-backed players
(`needsEnrichment` is `teams < 40 || players < 80`). -/
theorem syncSkipCheck_iff (store : Store) (sportId : String) (force : Bool)
    (cooldownMs now : Nat) :
    syncSkipCheck store sportId force cooldownMs now = true ↔
      (force = false ∧
       (∃ t, (alookup store.catalogSyncState sportId).bind
           (fun s => s.lastSuccessAt) = some t ∧ now - t < cooldownMs) ∧
       40 ≤ (getRealCatalogForSport store sportId).teams.length ∧
       80 ≤ (getRealCatalogForSport store sportId).players.length) := by
  unfold syncSkipCheck
  cases h : (alookup store.catalogSyncState sportId).bind
      (fun s => s.lastSuccessAt) with
  | none =>
    simp [h, Bool.and_eq_true, Bool.not_eq_true']
  | some t =>
    simp only [h, Option.bind_eq_bind, Bool.and_eq_true, Bool.not_eq_true',
      decide_eq_true_eq, Bool.or_eq_false_iff, decide_eq_false_iff_not,
      Nat.not_lt, Option.some.injEq]
    constructor
    · rintro ⟨⟨hf, hc⟩, h40, h80⟩
      exact ⟨hf, ⟨t, rfl, hc⟩, h40, h80⟩
    · rintro ⟨hf, ⟨t', rfl, hc⟩, h40, h80⟩
      exact ⟨⟨hf, hc⟩, h40, h80⟩

/-- C4 amended: the sync returns a skipped result exactly when the sport
exists, `force` is false, a prior `lastSuccessAt` lies within the cooldown
window, and the provenance-backed catalog has at least 40 teams AND at
least 80 players (the code's `needsEnrichment` is `teams < 40 || players
< 80`, so a single rich dimension does not suffice); a skipped run leaves
the store untouched. -/
theorem syncCooldownSkip_iff (store : Store) (sportId : String)
    (opts : SyncOptions) (provider : Provider) (clock : Clock) (fresh0 : Nat) :
    (((syncSportCatalogFromSportsDb store sportId opts provider clock
        fresh0).2.skipped = true) ↔
      ((store.sports.find? (fun s => s.id == sportId)).isSome = true ∧
       opts.force = false ∧
       (∃ t, (alookup store.catalogSyncState sportId).bind
           (fun s => s.lastSuccessAt) = some t ∧
         clock.now - t < resolveOpt opts.cooldownMs 900000) ∧
       40 ≤ (getRealCatalogForSport store sportId).teams.length ∧
       80 ≤ (getRealCatalogForSport store sportId).players.length)) ∧
    ((syncSportCatalogFromSportsDb store sportId opts provider clock
        fresh0).2.skipped = true →
      (syncSportCatalogFromSportsDb store sportId opts provider clock
        fresh0).1 = store) := by
  unfold syncSportCatalogFromSportsDb syncSportCatalogResolved
  rcases hfind : store.sports.find? (fun s => s.id == sportId) with _ | sport
  · simp [hfind]
  · rcases hskip : syncSkipCheck store sportId opts.force
        (resolveOpt opts.cooldownMs 900000) clock.now with _ | _
    · have hnot : ¬(opts.force = false ∧
          (∃ t, (alookup store.catalogSyncState sportId).bind
              (fun s => s.lastSuccessAt) = some t ∧
            clock.now - t < resolveOpt opts.cooldownMs 900000) ∧
          40 ≤ (getRealCatalogForSport store sportId).teams.length ∧
          80 ≤ (getRealCatalogForSport store sportId).players.length) := by
        intro hc
        have := (syncSkipCheck_iff store sportId opts.force
          (resolveOpt opts.cooldownMs 900000) clock.now).mpr hc
        rw [hskip] at this
        exact Bool.false_ne_true this
      rcases hprov : provider.allLeagues with msg | rows
      · refine ⟨⟨fun hsk => absurd hsk (by simp [hfind, hskip, hprov]), ?_⟩,
          fun hsk => absurd hsk (by simp [hfind, hskip, hprov])⟩
        rintro ⟨_, hrest⟩
        exact absurd hrest hnot
      · refine ⟨⟨fun hsk => absurd hsk (by simp [hfind, hskip, hprov]), ?_⟩,
          fun hsk => absurd hsk (by simp [hfind, hskip, hprov])⟩
        rintro ⟨_, hrest⟩
        exact absurd hrest hnot
    · have hparts := (syncSkipCheck_iff store sportId opts.force
        (resolveOpt opts.cooldownMs 900000) clock.now).mp hskip
      refine ⟨⟨fun _ => ⟨by simp [hfind], hparts⟩, fun _ => by simp [hfind, hskip]⟩,
        fun _ => by simp [hfind, hskip]⟩

/-- One provenance-backed team for the C4 fixtures. -/
def c4MkTeam (n : Nat) : Team :=
  { id := "t" ++ toString n, sportId := "s1", name := "team " ++ toString n,
    slug := "", externalSource := some "sportsdb",
    externalId := some ("X" ++ toString n) }

/-- One provenance-backed player for the C4 fixtures. -/
def c4MkPlayer (n : Nat) : Player :=
  { id := "p" ++ toString n, sportId := "s1", teamId := none,
    name := "player " ++ toString n, externalSource := some "sportsdb",
    externalId := some ("Y" ++ toString n) }

/-- C4 prior sync state: a success at time 900. -/
def c4State : CatalogSyncState :=
  { lastAttemptAt := some 900, lastSuccessAt := some 900, status := "ok",
    timedOut := some false, error := none, touchedTeams := 0,
    touchedPlayerTeams := 0, createdTeams := 0, createdPlayers := 0,
    createdLeagues := 0 }

/-- The single sport of the C4 fixtures. -/
def c4Sport : Sport :=
  { id := "s1", name := "Basketball", slug := "basketball",
    isPopular := true, externalSource := none, externalId := none }

/-- C4 counterexample store: 40 provenance-backed teams, 0 players, a
recent success. -/
def c4Store : Store :=
  { emptyStore with
      sports := [c4Sport],
      teams := (List.range 40).map c4MkTeam,
      catalogSyncState := [("s1", c4State)] }

/-- C4 witness store: 40 provenance-backed teams AND 80 players. -/
def c4RichStore : Store :=
  { c4Store with players := (List.range 80).map c4MkPlayer }

/-- A provider returning empty lists everywhere. -/
def c4Provider : Provider :=
  { allLeagues := .ok [], searchTeamsByLeague := fun _ => .ok [],
    lookupPlayers := fun _ => .ok [], searchTeamsByCountry := fun _ _ => .ok [] }

/-- A clock inside the cooldown window of `c4State`. -/
def c4Clock : Clock := { now := 1000, elapsed := fun _ => 0, finish := 777 }

/-- C4 counterexample: the claim's richness threshold "at least 40 teams OR
at least 80 players" holds (40 teams, 0 players), `force` is false and a
prior success lies within the cooldown window, yet the run is NOT skipped,
because the code requires both 40 teams and 80 players. -/
theorem syncCooldownSkip_cex :
    ((alookup c4Store.catalogSyncState "s1").bind
      (fun s => s.lastSuccessAt) = some 900) ∧
    c4Clock.now - 900 < 900000 ∧
    (40 ≤ (getRealCatalogForSport c4Store "s1").teams.length ∨
      80 ≤ (getRealCatalogForSport c4Store "s1").players.length) ∧
    (syncSportCatalogFromSportsDb c4Store "s1" {} c4Provider c4Clock
      0).2.skipped = false := by
  exact ⟨rfl, by decide, Or.inl (by decide), rfl⟩

/-- C4 witness: with 40 teams and 80 players the skip does fire and leaves
the store untouched. -/
theorem syncCooldownSkip_iff_witness :
    (syncSportCatalogFromSportsDb c4RichStore "s1" {} c4Provider c4Clock
      0).2.skipped = true ∧
    (syncSportCatalogFromSportsDb c4RichStore "s1" {} c4Provider c4Clock
      0).1 = c4RichStore := by
  have h := syncCooldownSkip_iff c4RichStore "s1" {} c4Provider c4Clock 0
  have hs : (syncSportCatalogFromSportsDb c4RichStore "s1" {} c4Provider
      c4Clock 0).2.skipped = true :=
    h.1.mpr ⟨by decide, rfl, ⟨900, rfl, by decide⟩, by decide, by decide⟩
  exact ⟨hs, h.2 hs⟩

/-! ## Claim C6 -/

theorem pushSyncHistory_catalogSyncState (s : Store) (e : SyncHistoryEntry) :
    (pushSyncHistory s e).catalogSyncState = s.catalogSyncState := rfl

theorem catalogHasData_pushHistory (s : Store) (e : SyncHistoryEntry)
    (sid : String) : catalogHasData (pushSyncHistory s e) sid =
      catalogHasData s sid := rfl

theorem catalogHasData_setState (s : Store)
    (v : List (String × CatalogSyncState)) (sid : String) :
    catalogHasData { s with catalogSyncState := v } sid =
      catalogHasData s sid := rfl

/-- C6 amended: on a non-skipped, provider-ok run, the stored
`lastSuccessAt` is the run's completion time exactly when the sport's
provenance-backed catalog is non-empty AFTER the run — whether or not the
run itself created or touched anything — and keeps its prior value only
when that catalog is empty. -/
theorem syncLastSuccess_iff_hasData (store : Store) (sportId : String)
    (opts : SyncOptions) (provider : Provider) (clock : Clock) (fresh0 : Nat)
    (sport : Sport) (rows : List SportsDbLeagueRow)
    (hfind : store.sports.find? (fun s => s.id == sportId) = some sport)
    (hskip : syncSkipCheck store sportId opts.force
      (resolveOpt opts.cooldownMs 900000) clock.now = false)
    (hprov : provider.allLeagues = Except.ok rows) :
    (alookup (syncSportCatalogFromSportsDb store sportId opts provider clock
        fresh0).1.catalogSyncState sportId).map (fun st => st.lastSuccessAt) =
      some (if catalogHasData (syncSportCatalogFromSportsDb store sportId opts
            provider clock fresh0).1 sportId
        then some clock.finish
        else (alookup store.catalogSyncState sportId).bind
          (fun s => s.lastSuccessAt)) := by
  unfold syncSportCatalogFromSportsDb syncSportCatalogResolved
  simp only [hfind, hskip, hprov, Bool.false_eq_true, if_false,
    pushSyncHistory_catalogSyncState, catalogHasData_pushHistory,
    catalogHasData_setState, alookup_aset_self, Option.map_some']

/-- The single sport of the C6 fixtures. -/
def c6Sport : Sport :=
  { id := "s1", name := "Basketball", slug := "basketball",
    isPopular := true, externalSource := none, externalId := none }

/-- A pre-existing provenance-backed team (not produced by the run). -/
def c6Team : Team :=
  { id := "tA", sportId := "s1", name := "beta", slug := "beta",
    externalSource := some "sportsdb", externalId := some "E" }

/-- Prior sync state with `lastSuccessAt` 5. -/
def c6State : CatalogSyncState :=
  { lastAttemptAt := some 5, lastSuccessAt := some 5, status := "ok",
    timedOut := some false, error := none, touchedTeams := 0,
    touchedPlayerTeams := 0, createdTeams := 0, createdPlayers := 0,
    createdLeagues := 0 }

/-- C6 store: a sport whose catalog already holds one provenance-backed
team, and a prior success at time 5. -/
def c6Store : Store :=
  { emptyStore with
      sports := [c6Sport],
      teams := [c6Team],
      catalogSyncState := [("s1", c6State)] }

/-- A provider that finds nothing. -/
def c6Provider : Provider :=
  { allLeagues := .ok [], searchTeamsByLeague := fun _ => .ok [],
    lookupPlayers := fun _ => .ok [], searchTeamsByCountry := fun _ _ => .ok [] }

/-- The C6 clock: the run completes at time 777. -/
def c6Clock : Clock := { now := 0, elapsed := fun _ => 0, finish := 777 }

/-- C6 counterexample: a forced run that creates and touches nothing (all
counters zero) still ADVANCES `lastSuccessAt` from 5 to the completion
time 777, because `hasData` counts the pre-existing provenance-backed
catalog, not what the run produced. -/
theorem syncLastSuccess_cex :
    (syncSportCatalogFromSportsDb c6Store "s1" { force := true } c6Provider
      c6Clock 0).2.createdTeams = 0 ∧
    (syncSportCatalogFromSportsDb c6Store "s1" { force := true } c6Provider
      c6Clock 0).2.createdPlayers = 0 ∧
    (syncSportCatalogFromSportsDb c6Store "s1" { force := true } c6Provider
      c6Clock 0).2.createdLeagues = 0 ∧
    (syncSportCatalogFromSportsDb c6Store "s1" { force := true } c6Provider
      c6Clock 0).2.touchedTeams = some 0 ∧
    ((alookup c6Store.catalogSyncState "s1").bind
      (fun s => s.lastSuccessAt) = some 5) ∧
    (alookup (syncSportCatalogFromSportsDb c6Store "s1" { force := true }
        c6Provider c6Clock 0).1.catalogSyncState "s1").map
      (fun s => s.lastSuccessAt) = some (some 777) := by
  exact ⟨rfl, rfl, rfl, rfl, rfl, rfl⟩

/-- C6 witness: the amended rule applied at the concrete C6 run. -/
theorem syncLastSuccess_iff_hasData_witness :
    c6Store.sports.find? (fun s => s.id == "s1") = some c6Sport ∧
    syncSkipCheck c6Store "s1" true (resolveOpt none 900000) c6Clock.now = false ∧
    c6Provider.allLeagues = Except.ok [] ∧
    (alookup (syncSportCatalogFromSportsDb c6Store "s1" { force := true }
        c6Provider c6Clock 0).1.catalogSyncState "s1").map
      (fun st => st.lastSuccessAt) =
      some (if catalogHasData (syncSportCatalogFromSportsDb c6Store "s1"
            { force := true } c6Provider c6Clock 0).1 "s1"
        then some c6Clock.finish
        else (alookup c6Store.catalogSyncState "s1").bind
          (fun s => s.lastSuccessAt)) := by
  exact ⟨rfl, rfl, rfl,
    syncLastSuccess_iff_hasData c6Store "s1" { force := true } c6Provider
      c6Clock 0 c6Sport [] rfl rfl rfl⟩

/-! ## Claim C8 -/

theorem aset_append_of_fresh {α : Type} (m : List (String × α)) (k : String)
    (v : α) (h : ∀ p ∈ m, p.1 ≠ k) : aset m k v = m ++ [(k, v)] := by
  induction m with
  | nil => rfl
  | cons p rest ih =>
    have hp : ¬(p.1 == k) = true := by
      simpa using h p (List.mem_cons_self p rest)
    simp only [aset, hp, if_false, Bool.false_eq_true, List.cons_append,
      List.cons.injEq, true_and]
    exact ih (fun q hq => h q (List.mem_cons_of_mem p hq))

theorem insertByFetchedDesc_top (x : String × FeedCacheEntry)
    (m : List (String × FeedCacheEntry))
    (h : ∀ p ∈ m, p.2.fetchedAt < x.2.fetchedAt) :
    insertByFetchedDesc x m = x :: m := by
  cases m with
  | nil => rfl
  | cons y ys =>
    have : ¬x.2.fetchedAt < y.2.fetchedAt :=
      Nat.lt_asymm (h y (List.mem_cons_self y ys))
    simp [insertByFetchedDesc, this]

theorem sortByFetchedDesc_append_max (m : List (String × FeedCacheEntry))
    (x : String × FeedCacheEntry)
    (h : ∀ p ∈ m, p.2.fetchedAt < x.2.fetchedAt) :
    sortByFetchedDesc (m ++ [x]) = x :: sortByFetchedDesc m := by
  induction m with
  | nil => rfl
  | cons y m' ih =>
    have hy : y.2.fetchedAt < x.2.fetchedAt := h y (List.mem_cons_self y m')
    have ih' := ih (fun p hp => h p (List.mem_cons_of_mem y hp))
    have hstep : sortByFetchedDesc ((y :: m') ++ [x]) =
        insertByFetchedDesc y (sortByFetchedDesc (m' ++ [x])) := rfl
    rw [hstep, ih']
    show (if y.2.fetchedAt < x.2.fetchedAt then
        x :: insertByFetchedDesc y (sortByFetchedDesc m')
      else y :: x :: sortByFetchedDesc m') = _
    rw [if_pos hy]
    rfl

theorem sortByFetchedDesc_of_sorted (m : List (String × FeedCacheEntry))
    (h : List.Pairwise (fun a b => b.2.fetchedAt < a.2.fetchedAt) m) :
    sortByFetchedDesc m = m := by
  induction m with
  | nil => rfl
  | cons y m' ih =>
    rcases List.pairwise_cons.mp h with ⟨hy, hm'⟩
    simp only [sortByFetchedDesc, ih hm']
    exact insertByFetchedDesc_top y m' hy

/-- A sequence of live refreshes for one sport, starting from an empty
per-sport cache map. -/
def refreshSequence (inserts : List (String × FeedCacheEntry)) :
    List (String × FeedCacheEntry) :=
  inserts.foldl (fun m p => writeFeedCacheEntry m p.1 p.2) []

theorem refreshSequence_eq (inserts : List (String × FeedCacheEntry))
    (hkeys : List.Pairwise (fun a b => a.1 ≠ b.1) inserts)
    (htimes : List.Pairwise
      (fun a b => a.2.fetchedAt < b.2.fetchedAt) inserts) :
    refreshSequence inserts = inserts.reverse.take 8 := by
  induction inserts using List.reverseRecOn with
  | nil => rfl
  | append_singleton l x ih =>
    rcases List.pairwise_append.mp hkeys with ⟨hkl, _, hklx⟩
    rcases List.pairwise_append.mp htimes with ⟨htl, _, htlx⟩
    have ihv := ih hkl htl
    have hsub : ∀ p ∈ l.reverse.take 8, p ∈ l := by
      intro p hp
      exact List.mem_reverse.mp (List.mem_of_mem_take hp)
    have hfresh : ∀ p ∈ l.reverse.take 8, p.1 ≠ x.1 := by
      intro p hp
      exact hklx p (hsub p hp) x (List.mem_singleton_self x)
    have hlt : ∀ p ∈ l.reverse.take 8, p.2.fetchedAt < x.2.fetchedAt := by
      intro p hp
      exact htlx p (hsub p hp) x (List.mem_singleton_self x)
    have hsorted : List.Pairwise
        (fun a b => b.2.fetchedAt < a.2.fetchedAt) (l.reverse.take 8) :=
      List.Pairwise.sublist (List.take_sublist 8 l.reverse)
        (List.pairwise_reverse.mpr htl)
    calc refreshSequence (l ++ [x])
        = writeFeedCacheEntry (refreshSequence l) x.1 x.2 := by
          simp [refreshSequence, List.foldl_append]
      _ = (sortByFetchedDesc (aset (l.reverse.take 8) x.1 x.2)).take 8 := by
          rw [ihv]; rfl
      _ = (sortByFetchedDesc (l.reverse.take 8 ++ [x])).take 8 := by
          rw [aset_append_of_fresh _ _ _ hfresh]
      _ = (x :: sortByFetchedDesc (l.reverse.take 8)).take 8 := by
          rw [sortByFetchedDesc_append_max _ _ hlt]
      _ = (x :: l.reverse.take 8).take 8 := by
          rw [sortByFetchedDesc_of_sorted _ hsorted]
      _ = x :: l.reverse.take 7 := by
          simp [List.take_take]
      _ = (l ++ [x]).reverse.take 8 := by
          simp [List.reverse_append]

/-- C8: after a sequence of at least 9 live refreshes under pairwise
distinct preference keys (with a strictly advancing clock), the sport's
entry map holds exactly 8 entries, and they are the 8 most recently
fetched ones, newest first. -/
theorem feedCache_cap_eight (inserts : List (String × FeedCacheEntry))
    (hkeys : List.Pairwise (fun a b => a.1 ≠ b.1) inserts)
    (htimes : List.Pairwise
      (fun a b => a.2.fetchedAt < b.2.fetchedAt) inserts)
    (hlen : 9 ≤ inserts.length) :
    refreshSequence inserts = inserts.reverse.take 8 ∧
    (refreshSequence inserts).length = 8 := by
  refine ⟨refreshSequence_eq inserts hkeys htimes, ?_⟩
  rw [refreshSequence_eq inserts hkeys htimes]
  simp only [List.length_take, List.length_reverse]
  omega

/-- The 9 distinct-key inserts of the C8 witness. -/
def c8Inserts : List (String × FeedCacheEntry) :=
  (List.range 9).map (fun n =>
    ("k" ++ toString n, { fetchedAt := n, highlights := [], news := [] }))

/-- C8 witness: nine concrete distinct-key refreshes retain exactly the
eight freshest entries. -/
theorem feedCache_cap_eight_witness :
    List.Pairwise (fun a b => a.1 ≠ b.1) c8Inserts ∧
    List.Pairwise (fun a b => a.2.fetchedAt < b.2.fetchedAt) c8Inserts ∧
    9 ≤ c8Inserts.length ∧
    refreshSequence c8Inserts = c8Inserts.reverse.take 8 ∧
    (refreshSequence c8Inserts).length = 8 := by
  have h := feedCache_cap_eight c8Inserts (by decide) (by decide) (by decide)
  exact ⟨by decide, by decide, by decide, h.1, h.2⟩

/-! ## Claim C3 -/

/-- Within a sport, no two records carry the same non-null
`("sportsdb", externalId)` pair. -/
def pairUniqueOn {α : Type} (sport : α → String) (src : α → Option String)
    (ext : α → Option String) (l : List α) : Prop :=
  List.Pairwise (fun a b =>
    ¬(sport a = sport b ∧ src a = some "sportsdb" ∧ src b = some "sportsdb" ∧
      ext a ≠ none ∧ ext a = ext b)) l

/-- Within a sport, no two records without an external id carry the same
normalized name. -/
def nameUniqueOn {α : Type} (sport : α → String) (nm : α → String)
    (ext : α → Option String) (l : List α) : Prop :=
  List.Pairwise (fun a b =>
    ¬(sport a = sport b ∧ ext a = none ∧ ext b = none ∧
      normalizeName (nm a) = normalizeName (nm b))) l

/-- The full identity-uniqueness invariant of the claim, over teams,
players and leagues. -/
def mergeIdentityInvariant (store : Store) : Prop :=
  pairUniqueOn Team.sportId Team.externalSource Team.externalId store.teams ∧
  nameUniqueOn Team.sportId Team.name Team.externalId store.teams ∧
  pairUniqueOn Player.sportId Player.externalSource Player.externalId
    store.players ∧
  nameUniqueOn Player.sportId Player.name Player.externalId store.players ∧
  pairUniqueOn League.sportId League.externalSource League.externalId
    store.leagues ∧
  nameUniqueOn League.sportId League.name League.externalId store.leagues

/-- The name half of the invariant alone. -/
def mergeNameInvariant (store : Store) : Prop :=
  nameUniqueOn Team.sportId Team.name Team.externalId store.teams ∧
  nameUniqueOn Player.sportId Player.name Player.externalId store.players ∧
  nameUniqueOn League.sportId League.name League.externalId store.leagues

theorem upsertTeam_players (store : Store) (sportId : String)
    (row : SportsDbTeamRow) (fid : String) :
    (upsertTeamFromSportsDb store sportId row fid).1.players = store.players := by
  unfold upsertTeamFromSportsDb
  dsimp only
  split
  · rfl
  · split <;> rfl

theorem upsertTeam_leagues (store : Store) (sportId : String)
    (row : SportsDbTeamRow) (fid : String) :
    (upsertTeamFromSportsDb store sportId row fid).1.leagues = store.leagues := by
  unfold upsertTeamFromSportsDb
  dsimp only
  split
  · rfl
  · split <;> rfl

theorem upsertTeam_sports (store : Store) (sportId : String)
    (row : SportsDbTeamRow) (fid : String) :
    (upsertTeamFromSportsDb store sportId row fid).1.sports = store.sports := by
  unfold upsertTeamFromSportsDb
  dsimp only
  split
  · rfl
  · split <;> rfl

theorem upsertPlayer_teams (store : Store) (sportId : String)
    (teamId : Option String) (row : SportsDbPlayerRow) (fid : String) :
    (upsertPlayerFromSportsDb store sportId teamId row fid).1.teams =
      store.teams := by
  unfold upsertPlayerFromSportsDb
  dsimp only
  split
  · rfl
  · split <;> rfl

theorem upsertPlayer_leagues (store : Store) (sportId : String)
    (teamId : Option String) (row : SportsDbPlayerRow) (fid : String) :
    (upsertPlayerFromSportsDb store sportId teamId row fid).1.leagues =
      store.leagues := by
  unfold upsertPlayerFromSportsDb
  dsimp only
  split
  · rfl
  · split <;> rfl

theorem upsertPlayer_sports (store : Store) (sportId : String)
    (teamId : Option String) (row : SportsDbPlayerRow) (fid : String) :
    (upsertPlayerFromSportsDb store sportId teamId row fid).1.sports =
      store.sports := by
  unfold upsertPlayerFromSportsDb
  dsimp only
  split
  · rfl
  · split <;> rfl

theorem upsertLeague_teams (store : Store) (row : SportsDbLeagueRow)
    (fid : String) :
    (upsertLeagueFromSportsDb store row fid).1.teams = store.teams := by
  unfold upsertLeagueFromSportsDb
  dsimp only
  split
  · rfl
  · split
    · rfl
    · split <;> rfl

theorem upsertLeague_players (store : Store) (row : SportsDbLeagueRow)
    (fid : String) :
    (upsertLeagueFromSportsDb store row fid).1.players = store.players := by
  unfold upsertLeagueFromSportsDb
  dsimp only
  split
  · rfl
  · split
    · rfl
    · split <;> rfl

theorem upsertLeague_sports (store : Store) (row : SportsDbLeagueRow)
    (fid : String) :
    (upsertLeagueFromSportsDb store row fid).1.sports = store.sports := by
  unfold upsertLeagueFromSportsDb
  dsimp only
  split
  · rfl
  · split
    · rfl
    · split <;> rfl

theorem upsertSport_teams (store : Store) (row : SportsDbSportRow)
    (fid : String) :
    (upsertSportFromSportsDb store row fid).1.teams = store.teams := by
  unfold upsertSportFromSportsDb
  dsimp only
  split
  · rfl
  · split <;> rfl

theorem upsertSport_players (store : Store) (row : SportsDbSportRow)
    (fid : String) :
    (upsertSportFromSportsDb store row fid).1.players = store.players := by
  unfold upsertSportFromSportsDb
  dsimp only
  split
  · rfl
  · split <;> rfl

theorem upsertSport_leagues (store : Store) (row : SportsDbSportRow)
    (fid : String) :
    (upsertSportFromSportsDb store row fid).1.leagues = store.leagues := by
  unfold upsertSportFromSportsDb
  dsimp only
  split
  · rfl
  · split <;> rfl

theorem upsertTeam_preserves_nameUnique (store : Store) (sportId : String)
    (row : SportsDbTeamRow) (fid : String)
    (h : nameUniqueOn Team.sportId Team.name Team.externalId store.teams) :
    nameUniqueOn Team.sportId Team.name Team.externalId
      (upsertTeamFromSportsDb store sportId row fid).1.teams := by
  unfold upsertTeamFromSportsDb
  dsimp only
  cases hext : strToOpt row.idTeam with
  | none =>
    split
    · exact h
    · split
      · dsimp only
        rw [updateFirst_eq_of_id (teamApplyExt none) (fun a => rfl)]
        exact h
      · rename_i heq
        dsimp only
        rw [nameUniqueOn, List.pairwise_append]
        refine ⟨h, List.pairwise_singleton _ _, ?_⟩
        intro a ha b hb
        rcases List.mem_singleton.mp hb with rfl
        rintro ⟨h1, _, _, h4⟩
        have hnone := List.find?_eq_none.mp heq a ha
        apply hnone
        simp only [teamMatchesRow, Bool.and_eq_true, Bool.or_eq_true,
          beq_iff_eq]
        exact ⟨h1, Or.inr h4⟩
  | some e =>
    split
    · exact h
    · split
      · dsimp only
        refine pairwise_updateFirst h ?_ ?_ _
        · intro a b _
          rintro ⟨_, h2, _, _⟩
          exact Option.noConfusion h2
        · intro a b hab
          rintro ⟨_, _, h3, _⟩
          exact Option.noConfusion h3
      · rename_i heq
        dsimp only
        rw [nameUniqueOn, List.pairwise_append]
        refine ⟨h, List.pairwise_singleton _ _, ?_⟩
        intro a ha b hb
        rcases List.mem_singleton.mp hb with rfl
        rintro ⟨_, _, h3, _⟩
        exact Option.noConfusion h3

theorem playerApplyExt_sportId (e : Option String) (tid : Option String)
    (a : Player) : (playerApplyExt e tid a).sportId = a.sportId := by
  cases e <;> cases tid <;> rfl

theorem playerApplyExt_name (e : Option String) (tid : Option String)
    (a : Player) : (playerApplyExt e tid a).name = a.name := by
  cases e <;> cases tid <;> rfl

theorem playerApplyExt_externalId_none (tid : Option String) (a : Player) :
    (playerApplyExt none tid a).externalId = a.externalId := by
  cases tid <;> rfl

theorem playerApplyExt_externalId_some (e : String) (tid : Option String)
    (a : Player) : (playerApplyExt (some e) tid a).externalId = some e := by
  cases tid <;> rfl

theorem upsertPlayer_preserves_nameUnique (store : Store) (sportId : String)
    (teamId : Option String) (row : SportsDbPlayerRow) (fid : String)
    (h : nameUniqueOn Player.sportId Player.name Player.externalId
      store.players) :
    nameUniqueOn Player.sportId Player.name Player.externalId
      (upsertPlayerFromSportsDb store sportId teamId row fid).1.players := by
  unfold upsertPlayerFromSportsDb
  dsimp only
  cases hext : strToOpt row.idPlayer with
  | none =>
    split
    · exact h
    · split
      · dsimp only
        refine pairwise_updateFirst h ?_ ?_ _
        · intro a b hab
          rintro ⟨h1, h2, h3, h4⟩
          rw [playerApplyExt_sportId] at h1
          rw [playerApplyExt_externalId_none] at h2
          rw [playerApplyExt_name] at h4
          exact hab ⟨h1, h2, h3, h4⟩
        · intro a b hab
          rintro ⟨h1, h2, h3, h4⟩
          rw [playerApplyExt_sportId] at h1
          rw [playerApplyExt_externalId_none] at h3
          rw [playerApplyExt_name] at h4
          exact hab ⟨h1, h2, h3, h4⟩
      · rename_i heq
        dsimp only
        rw [nameUniqueOn, List.pairwise_append]
        refine ⟨h, List.pairwise_singleton _ _, ?_⟩
        intro a ha b hb
        rcases List.mem_singleton.mp hb with rfl
        rintro ⟨h1, _, _, h4⟩
        have hnone := List.find?_eq_none.mp heq a ha
        apply hnone
        simp only [playerMatchesRow, Bool.and_eq_true, Bool.or_eq_true,
          beq_iff_eq]
        exact ⟨h1, Or.inr h4⟩
  | some e =>
    split
    · exact h
    · split
      · dsimp only
        refine pairwise_updateFirst h ?_ ?_ _
        · intro a b _
          rintro ⟨_, h2, _, _⟩
          rw [playerApplyExt_externalId_some] at h2
          exact Option.noConfusion h2
        · intro a b _
          rintro ⟨_, _, h3, _⟩
          rw [playerApplyExt_externalId_some] at h3
          exact Option.noConfusion h3
      · dsimp only
        rw [nameUniqueOn, List.pairwise_append]
        refine ⟨h, List.pairwise_singleton _ _, ?_⟩
        intro a ha b hb
        rcases List.mem_singleton.mp hb with rfl
        rintro ⟨_, _, h3, _⟩
        exact Option.noConfusion h3

theorem upsertLeague_preserves_nameUnique (store : Store)
    (row : SportsDbLeagueRow) (fid : String)
    (h : nameUniqueOn League.sportId League.name League.externalId
      store.leagues) :
    nameUniqueOn League.sportId League.name League.externalId
      (upsertLeagueFromSportsDb store row fid).1.leagues := by
  unfold upsertLeagueFromSportsDb
  dsimp only
  split
  · exact h
  · split
    · exact h
    · rename_i sport hsport
      cases hext : strToOpt row.idLeague with
      | none =>
        split
        · dsimp only
          rw [updateFirst_eq_of_id (leagueApplyExt none) (fun a => rfl)]
          exact h
        · rename_i heq
          dsimp only
          rw [nameUniqueOn, List.pairwise_append]
          refine ⟨h, List.pairwise_singleton _ _, ?_⟩
          intro a ha b hb
          rcases List.mem_singleton.mp hb with rfl
          rintro ⟨h1, _, _, h4⟩
          have hnone := List.find?_eq_none.mp heq a ha
          apply hnone
          simp only [leagueMatchesRow, Bool.and_eq_true, Bool.or_eq_true,
            beq_iff_eq]
          exact ⟨h1, Or.inr h4⟩
      | some e =>
        split
        · dsimp only
          refine pairwise_updateFirst h ?_ ?_ _
          · intro a b _
            rintro ⟨_, h2, _, _⟩
            exact Option.noConfusion h2
          · intro a b _
            rintro ⟨_, _, h3, _⟩
            exact Option.noConfusion h3
        · dsimp only
          rw [nameUniqueOn, List.pairwise_append]
          refine ⟨h, List.pairwise_singleton _ _, ?_⟩
          intro a ha b hb
          rcases List.mem_singleton.mp hb with rfl
          rintro ⟨_, _, h3, _⟩
          exact Option.noConfusion h3

theorem applyMergeOp_preserves_nameInv (store : Store) (fresh : Nat)
    (op : MergeOp) (h : mergeNameInvariant store) :
    mergeNameInvariant (applyMergeOp store fresh op).1 := by
  rcases h with ⟨ht, hp, hl⟩
  cases op with
  | sport row =>
    refine ⟨?_, ?_, ?_⟩ <;> simp only [applyMergeOp]
    · rw [upsertSport_teams]; exact ht
    · rw [upsertSport_players]; exact hp
    · rw [upsertSport_leagues]; exact hl
  | league row =>
    refine ⟨?_, ?_, ?_⟩ <;> simp only [applyMergeOp]
    · rw [upsertLeague_teams]; exact ht
    · rw [upsertLeague_players]; exact hp
    · exact upsertLeague_preserves_nameUnique _ _ _ hl
  | team sid row =>
    refine ⟨?_, ?_, ?_⟩ <;> simp only [applyMergeOp]
    · exact upsertTeam_preserves_nameUnique _ _ _ _ ht
    · rw [upsertTeam_players]; exact hp
    · rw [upsertTeam_leagues]; exact hl
  | player sid tid row =>
    refine ⟨?_, ?_, ?_⟩ <;> simp only [applyMergeOp]
    · rw [upsertPlayer_teams]; exact ht
    · exact upsertPlayer_preserves_nameUnique _ _ _ _ _ hp
    · rw [upsertPlayer_leagues]; exact hl

/-- C3 amended: the name half of the identity invariant IS preserved by any
sequence of Merge Engine upserts — no upsert ever creates a second
no-external-id record with an already-present normalized name in a sport —
but the external-pair half is not an invariant (see the counterexample). -/
theorem mergeOps_preserve_name_uniqueness (ops : List MergeOp) :
    ∀ (store : Store) (fresh : Nat), mergeNameInvariant store →
      mergeNameInvariant (applyMergeOps store fresh ops).1 := by
  induction ops with
  | nil => exact fun store fresh h => h
  | cons op rest ih =>
    intro store fresh h
    simp only [applyMergeOps]
    exact ih _ _ (applyMergeOp_preserves_nameInv store fresh op h)

/-- A team without external id, named `alpha`. -/
def c3TeamA : Team :=
  { id := "tB", sportId := "s1", name := "alpha", slug := "alpha",
    externalSource := none, externalId := none }

/-- A team already carrying the pair `("sportsdb", "E")`, named `beta`. -/
def c3TeamB : Team :=
  { id := "tA", sportId := "s1", name := "beta", slug := "beta",
    externalSource := some "sportsdb", externalId := some "E" }

/-- The C3 counterexample store: both teams, invariant satisfied. -/
def c3Store : Store := { emptyStore with teams := [c3TeamA, c3TeamB] }

/-- The single upsert breaking pair uniqueness: its name matches `alpha`
(listed first), its external id is `beta`'s. -/
def c3Ops : List MergeOp :=
  [MergeOp.team "s1" { strTeam := "alpha", idTeam := "E" }]

instance (store : Store) : Decidable (mergeIdentityInvariant store) := by
  unfold mergeIdentityInvariant pairUniqueOn nameUniqueOn
  infer_instance

instance (store : Store) : Decidable (mergeNameInvariant store) := by
  unfold mergeNameInvariant nameUniqueOn
  infer_instance

/-- C3 counterexample: the store satisfies the full identity-uniqueness
invariant, and one team upsert breaks it — the row name-matches `alpha`
(first in the array), so the provenance write copies `beta`'s pair
`("sportsdb", "E")` onto `alpha`, leaving two records with the same
non-null pair in the sport. -/
theorem mergeIdentity_cex :
    mergeIdentityInvariant c3Store ∧
    ¬ mergeIdentityInvariant (applyMergeOps c3Store 0 c3Ops).1 := by
  constructor
  · decide
  · decide

/-- C3 witness: the name half of the invariant survives the very sequence
that broke the pair half. -/
theorem mergeOps_preserve_name_uniqueness_witness :
    mergeNameInvariant c3Store ∧
    mergeNameInvariant (applyMergeOps c3Store 0 c3Ops).1 :=
  ⟨by decide, mergeOps_preserve_name_uniqueness c3Ops c3Store 0 (by decide)⟩

/-! ## Claim C1 -/

/-- The `(sportId, normalized name)` matching keys of the team records. -/
def teamKeys (store : Store) : List (String × String) :=
  store.teams.map (fun t => (t.sportId, normalizeName t.name))

/-- The `(sportId, normalized name)` matching keys of the player records. -/
def playerKeys (store : Store) : List (String × String) :=
  store.players.map (fun p => (p.sportId, normalizeName p.name))

/-- The `(sportId, normalized name)` matching keys of the league records. -/
def leagueKeys (store : Store) : List (String × String) :=
  store.leagues.map (fun l => (l.sportId, normalizeName l.name))

/-- The normalized names of the sport records. -/
def sportKeys (store : Store) : List String :=
  store.sports.map (fun s => normalizeName s.name)

/-- The upsert's row carries no external id. -/
def mergeOpNoExternalId : MergeOp → Prop
  | .sport row => strToOpt row.idSport = none
  | .league row => strToOpt row.idLeague = none
  | .team _ row => strToOpt row.idTeam = none
  | .player _ _ row => strToOpt row.idPlayer = none

/-- For a league row, the referenced sport already resolves in the given
store (or the row is invalid and upserts nothing). -/
def leagueSportFindable (store : Store) : MergeOp → Prop
  | .league row =>
      trimString row.strLeague = "" ∨ trimString row.strSport = "" ∨
      (store.sports.find? (fun s =>
        normalizeName s.name == normalizeName (trimString row.strSport))).isSome
        = true
  | _ => True

/-- `s1` extends `s0`: the sport records are a literal prefix and each
entity key list only grew at the end. -/
def storeExtends (s0 s1 : Store) : Prop :=
  (∃ d, s1.sports = s0.sports ++ d) ∧
  (∃ d, teamKeys s1 = teamKeys s0 ++ d) ∧
  (∃ d, playerKeys s1 = playerKeys s0 ++ d) ∧
  (∃ d, leagueKeys s1 = leagueKeys s0 ++ d)

/-- The op's row already matches a record of the store (by name), so its
upsert cannot create a new record. -/
def opCovered (store : Store) : MergeOp → Prop
  | .sport row =>
      trimString row.strSport = "" ∨
      normalizeName (trimString row.strSport) ∈ sportKeys store
  | .team sid row =>
      trimString row.strTeam = "" ∨
      (sid, normalizeName (trimString row.strTeam)) ∈ teamKeys store
  | .player sid _ row =>
      trimString row.strPlayer = "" ∨
      (sid, normalizeName (trimString row.strPlayer)) ∈ playerKeys store
  | .league row =>
      trimString row.strLeague = "" ∨ trimString row.strSport = "" ∨
      ∃ sport, store.sports.find? (fun s =>
          normalizeName s.name == normalizeName (trimString row.strSport)) =
            some sport ∧
        (sport.id, normalizeName (trimString row.strLeague)) ∈
          leagueKeys store

theorem storeExtends_refl (s : Store) : storeExtends s s :=
  ⟨⟨[], by simp⟩, ⟨[], by simp⟩, ⟨[], by simp⟩, ⟨[], by simp⟩⟩

theorem storeExtends_trans {a b c : Store} (h1 : storeExtends a b)
    (h2 : storeExtends b c) : storeExtends a c := by
  obtain ⟨⟨d1, e1⟩, ⟨d2, e2⟩, ⟨d3, e3⟩, ⟨d4, e4⟩⟩ := h1
  obtain ⟨⟨g1, f1⟩, ⟨g2, f2⟩, ⟨g3, f3⟩, ⟨g4, f4⟩⟩ := h2
  exact ⟨⟨d1 ++ g1, by rw [f1, e1, List.append_assoc]⟩,
         ⟨d2 ++ g2, by rw [f2, e2, List.append_assoc]⟩,
         ⟨d3 ++ g3, by rw [f3, e3, List.append_assoc]⟩,
         ⟨d4 ++ g4, by rw [f4, e4, List.append_assoc]⟩⟩

theorem find?_append_some {α : Type} {p : α → Bool} {l₁ : List α} {x : α}
    (l₂ : List α) (h : List.find? p l₁ = some x) :
    List.find? p (l₁ ++ l₂) = some x := by
  rw [List.find?_append, h]
  rfl

theorem upsertTeam_keys_extend (store : Store) (sid : String)
    (row : SportsDbTeamRow) (fid : String) :
    ∃ d, teamKeys (upsertTeamFromSportsDb store sid row fid).1 =
      teamKeys store ++ d := by
  unfold upsertTeamFromSportsDb
  dsimp only
  split
  · exact ⟨[], by simp⟩
  · split
    · refine ⟨[], ?_⟩
      simp only [teamKeys, List.append_nil]
      exact updateFirst_map_eq
        (fun a => by cases strToOpt row.idTeam <;> rfl) _ _
    · exact ⟨[(sid, normalizeName (trimString row.strTeam))],
        by simp [teamKeys]⟩

theorem upsertPlayer_keys_extend (store : Store) (sid : String)
    (tid : Option String) (row : SportsDbPlayerRow) (fid : String) :
    ∃ d, playerKeys (upsertPlayerFromSportsDb store sid tid row fid).1 =
      playerKeys store ++ d := by
  unfold upsertPlayerFromSportsDb
  dsimp only
  split
  · exact ⟨[], by simp⟩
  · split
    · refine ⟨[], ?_⟩
      simp only [playerKeys, List.append_nil]
      exact updateFirst_map_eq
        (fun a => by
          rw [Prod.mk.injEq]
          exact ⟨playerApplyExt_sportId _ _ _,
            by rw [playerApplyExt_name]⟩) _ _
    · exact ⟨[(sid, normalizeName (trimString row.strPlayer))],
        by simp [playerKeys]⟩

theorem upsertLeague_keys_extend (store : Store) (row : SportsDbLeagueRow)
    (fid : String) :
    ∃ d, leagueKeys (upsertLeagueFromSportsDb store row fid).1 =
      leagueKeys store ++ d := by
  unfold upsertLeagueFromSportsDb
  dsimp only
  split
  · exact ⟨[], by simp⟩
  · split
    · exact ⟨[], by simp⟩
    · rename_i sport hsport
      split
      · refine ⟨[], ?_⟩
        simp only [leagueKeys, List.append_nil]
        exact updateFirst_map_eq
          (fun a => by cases strToOpt row.idLeague <;> rfl) _ _
      · exact ⟨[(sport.id, normalizeName (trimString row.strLeague))],
          by simp [leagueKeys]⟩

theorem upsertSport_sports_extend (store : Store) (row : SportsDbSportRow)
    (fid : String) (hext : strToOpt row.idSport = none) :
    ∃ d, (upsertSportFromSportsDb store row fid).1.sports =
      store.sports ++ d := by
  unfold upsertSportFromSportsDb
  dsimp only
  rw [hext]
  split
  · exact ⟨[], by simp⟩
  · split
    · refine ⟨[], ?_⟩
      rw [List.append_nil]
      exact updateFirst_eq_of_id (sportApplyExt none) (fun a => rfl) _ _
    · exact ⟨[_], rfl⟩

theorem applyMergeOp_extends (store : Store) (fresh : Nat) (op : MergeOp)
    (hext : mergeOpNoExternalId op) :
    storeExtends store (applyMergeOp store fresh op).1 := by
  cases op with
  | sport row =>
    refine ⟨?_, ⟨[], ?_⟩, ⟨[], ?_⟩, ⟨[], ?_⟩⟩ <;> simp only [applyMergeOp]
    · exact upsertSport_sports_extend store row _ hext
    · simp [teamKeys, upsertSport_teams]
    · simp [playerKeys, upsertSport_players]
    · simp [leagueKeys, upsertSport_leagues]
  | league row =>
    refine ⟨⟨[], ?_⟩, ⟨[], ?_⟩, ⟨[], ?_⟩, ?_⟩ <;> simp only [applyMergeOp]
    · simp [upsertLeague_sports]
    · simp [teamKeys, upsertLeague_teams]
    · simp [playerKeys, upsertLeague_players]
    · exact upsertLeague_keys_extend store row _
  | team sid row =>
    refine ⟨⟨[], ?_⟩, ?_, ⟨[], ?_⟩, ⟨[], ?_⟩⟩ <;> simp only [applyMergeOp]
    · simp [upsertTeam_sports]
    · exact upsertTeam_keys_extend store sid row _
    · simp [playerKeys, upsertTeam_players]
    · simp [leagueKeys, upsertTeam_leagues]
  | player sid tid row =>
    refine ⟨⟨[], ?_⟩, ⟨[], ?_⟩, ?_, ⟨[], ?_⟩⟩ <;> simp only [applyMergeOp]
    · simp [upsertPlayer_sports]
    · simp [teamKeys, upsertPlayer_teams]
    · exact upsertPlayer_keys_extend store sid tid row _
    · simp [leagueKeys, upsertPlayer_leagues]

theorem applyMergeOps_extends (ops : List MergeOp) :
    ∀ (store : Store) (fresh : Nat),
      (∀ op ∈ ops, mergeOpNoExternalId op) →
      storeExtends store (applyMergeOps store fresh ops).1 := by
  induction ops with
  | nil => exact fun store fresh _ => storeExtends_refl store
  | cons op rest ih =>
    intro store fresh hext
    simp only [applyMergeOps]
    exact storeExtends_trans
      (applyMergeOp_extends store fresh op
        (hext op (List.mem_cons_self op rest)))
      (ih _ _ (fun o ho => hext o (List.mem_cons_of_mem op ho)))

theorem opCovered_mono {s0 s1 : Store} (hext : storeExtends s0 s1)
    (op : MergeOp) (h : opCovered s0 op) : opCovered s1 op := by
  obtain ⟨⟨d1, hs⟩, ⟨d2, ht⟩, ⟨d3, hp⟩, ⟨d4, hl⟩⟩ := hext
  cases op with
  | sport row =>
    rcases h with h | h
    · exact Or.inl h
    · refine Or.inr ?_
      have hsk : sportKeys s1 =
          sportKeys s0 ++ d1.map (fun s => normalizeName s.name) := by
        simp [sportKeys, hs]
      rw [hsk]
      exact List.mem_append_left _ h
  | team sid row =>
    rcases h with h | h
    · exact Or.inl h
    · refine Or.inr ?_
      rw [ht]
      exact List.mem_append_left _ h
  | player sid tid row =>
    rcases h with h | h
    · exact Or.inl h
    · refine Or.inr ?_
      rw [hp]
      exact List.mem_append_left _ h
  | league row =>
    rcases h with h | h | ⟨sport, hfind, hkey⟩
    · exact Or.inl h
    · exact Or.inr (Or.inl h)
    · refine Or.inr (Or.inr ⟨sport, ?_, ?_⟩)
      · rw [hs]
        exact find?_append_some d1 hfind
      · rw [hl]
        exact List.mem_append_left _ hkey

theorem upsertTeam_covers (store : Store) (sid : String)
    (row : SportsDbTeamRow) (fid : String)
    (hnoext : strToOpt row.idTeam = none)
    (hname : ¬trimString row.strTeam = "") :
    (sid, normalizeName (trimString row.strTeam)) ∈
      teamKeys (upsertTeamFromSportsDb store sid row fid).1 := by
  unfold upsertTeamFromSportsDb
  dsimp only
  rw [hnoext, if_neg hname]
  split
  · rename_i t hfound
    have hp := List.find?_some hfound
    have hm := List.mem_of_find?_eq_some hfound
    simp only [teamMatchesRow, Bool.and_eq_true, Bool.or_eq_true,
      beq_iff_eq] at hp
    dsimp only [teamKeys]
    rw [updateFirst_eq_of_id (teamApplyExt none) (fun a => rfl)]
    rcases hp with ⟨h1, h2 | h2⟩
    · exact absurd h2 (by simp)
    · exact List.mem_map.mpr ⟨t, hm, by rw [h1, h2]⟩
  · simp [teamKeys]

theorem upsertPlayer_covers (store : Store) (sid : String)
    (tid : Option String) (row : SportsDbPlayerRow) (fid : String)
    (hnoext : strToOpt row.idPlayer = none)
    (hname : ¬trimString row.strPlayer = "") :
    (sid, normalizeName (trimString row.strPlayer)) ∈
      playerKeys (upsertPlayerFromSportsDb store sid tid row fid).1 := by
  unfold upsertPlayerFromSportsDb
  dsimp only
  rw [hnoext, if_neg hname]
  split
  · rename_i t hfound
    have hp := List.find?_some hfound
    have hm := List.mem_of_find?_eq_some hfound
    simp only [playerMatchesRow, Bool.and_eq_true, Bool.or_eq_true,
      beq_iff_eq] at hp
    dsimp only [playerKeys]
    have hkeys : List.map (fun p => (p.sportId, normalizeName p.name))
        (updateFirst
          (playerMatchesRow sid none (normalizeName (trimString row.strPlayer)))
          (playerApplyExt none tid) store.players) =
        List.map (fun p => (p.sportId, normalizeName p.name)) store.players :=
      updateFirst_map_eq (fun a => by
        rw [Prod.mk.injEq]
        exact ⟨playerApplyExt_sportId _ _ _, by rw [playerApplyExt_name]⟩) _ _
    rw [hkeys]
    rcases hp with ⟨h1, h2 | h2⟩
    · exact absurd h2 (by simp)
    · exact List.mem_map.mpr ⟨t, hm, by rw [h1, h2]⟩
  · simp [playerKeys]

theorem upsertSport_covers (store : Store) (row : SportsDbSportRow)
    (fid : String) (hnoext : strToOpt row.idSport = none)
    (hname : ¬trimString row.strSport = "") :
    normalizeName (trimString row.strSport) ∈
      sportKeys (upsertSportFromSportsDb store row fid).1 := by
  unfold upsertSportFromSportsDb
  dsimp only
  rw [hnoext, if_neg hname]
  split
  · rename_i t hfound
    have hp := List.find?_some hfound
    have hm := List.mem_of_find?_eq_some hfound
    simp only [sportMatchesRow, Bool.or_eq_true, beq_iff_eq] at hp
    dsimp only [sportKeys]
    rw [updateFirst_eq_of_id (sportApplyExt none) (fun a => rfl)]
    rcases hp with hp | hp
    · exact absurd hp (by simp)
    · exact List.mem_map.mpr ⟨t, hm, hp⟩
  · simp [sportKeys]

theorem upsertLeague_covers (store : Store) (row : SportsDbLeagueRow)
    (fid : String) (sport : Sport)
    (hnoext : strToOpt row.idLeague = none)
    (hname : ¬trimString row.strLeague = "")
    (hsname : ¬trimString row.strSport = "")
    (hfound : store.sports.find? (fun s =>
      normalizeName s.name == normalizeName (trimString row.strSport)) =
        some sport) :
    (upsertLeagueFromSportsDb store row fid).1.sports.find? (fun s =>
      normalizeName s.name == normalizeName (trimString row.strSport)) =
        some sport ∧
    (sport.id, normalizeName (trimString row.strLeague)) ∈
      leagueKeys (upsertLeagueFromSportsDb store row fid).1 := by
  constructor
  · rw [upsertLeague_sports]
    exact hfound
  · unfold upsertLeagueFromSportsDb
    dsimp only
    rw [if_neg (by simp [hname, hsname])]
    rw [hfound]
    dsimp only
    rw [hnoext]
    split
    · rename_i lg hlg
      have hp := List.find?_some hlg
      have hm := List.mem_of_find?_eq_some hlg
      simp only [leagueMatchesRow, Bool.and_eq_true, Bool.or_eq_true,
        beq_iff_eq] at hp
      dsimp only [leagueKeys]
      rw [updateFirst_eq_of_id (leagueApplyExt none) (fun a => rfl)]
      rcases hp with ⟨h1, h2 | h2⟩
      · exact absurd h2 (by simp)
      · exact List.mem_map.mpr ⟨lg, hm, by rw [h1, h2]⟩
    · simp [leagueKeys]

theorem applyMergeOp_covers (store0 store : Store) (fresh : Nat)
    (op : MergeOp) (hnoext : mergeOpNoExternalId op)
    (hfind : leagueSportFindable store0 op)
    (hext : storeExtends store0 store) :
    opCovered (applyMergeOp store fresh op).1 op := by
  cases op with
  | sport row =>
    by_cases hname : trimString row.strSport = ""
    · exact Or.inl hname
    · exact Or.inr (upsertSport_covers store row _ hnoext hname)
  | team sid row =>
    by_cases hname : trimString row.strTeam = ""
    · exact Or.inl hname
    · exact Or.inr (upsertTeam_covers store sid row _ hnoext hname)
  | player sid tid row =>
    by_cases hname : trimString row.strPlayer = ""
    · exact Or.inl hname
    · exact Or.inr (upsertPlayer_covers store sid tid row _ hnoext hname)
  | league row =>
    by_cases hname : trimString row.strLeague = ""
    · exact Or.inl hname
    · by_cases hsname : trimString row.strSport = ""
      · exact Or.inr (Or.inl hsname)
      · rcases hfind with h | h | h
        · exact absurd h hname
        · exact absurd h hsname
        · obtain ⟨x, hx⟩ := Option.isSome_iff_exists.mp h
          obtain ⟨⟨d1, hs⟩, _, _, _⟩ := hext
          have hx' : store.sports.find? (fun s =>
              normalizeName s.name ==
                normalizeName (trimString row.strSport)) = some x := by
            rw [hs]
            exact find?_append_some d1 hx
          have hc := upsertLeague_covers store row ("lg_" ++ toString fresh)
            x hnoext hname hsname hx'
          exact Or.inr (Or.inr ⟨x, hc.1, hc.2⟩)

theorem applyMergeOps_covers (ops : List MergeOp) :
    ∀ (store0 store : Store) (fresh : Nat),
      (∀ op ∈ ops, mergeOpNoExternalId op) →
      (∀ op ∈ ops, leagueSportFindable store0 op) →
      storeExtends store0 store →
      ∀ op ∈ ops, opCovered (applyMergeOps store fresh ops).1 op := by
  induction ops with
  | nil =>
    intro _ _ _ _ _ _ op hop
    exact absurd hop (List.not_mem_nil op)
  | cons op rest ih =>
    intro store0 store fresh hnoext hfind hext op' hop'
    simp only [applyMergeOps]
    rcases List.mem_cons.mp hop' with rfl | hop'
    · have hc := applyMergeOp_covers store0 store fresh op'
        (hnoext op' (List.mem_cons_self op' rest))
        (hfind op' (List.mem_cons_self op' rest)) hext
      have hrest := applyMergeOps_extends rest
        (applyMergeOp store fresh op').1 (applyMergeOp store fresh op').2
        (fun o ho => hnoext o (List.mem_cons_of_mem op' ho))
      exact opCovered_mono hrest op' hc
    · exact ih store0 _ _
        (fun o ho => hnoext o (List.mem_cons_of_mem op ho))
        (fun o ho => hfind o (List.mem_cons_of_mem op ho))
        (storeExtends_trans hext (applyMergeOp_extends store fresh op
          (hnoext op (List.mem_cons_self op rest)))) op' hop'

theorem upsertTeam_len_of_covered (store : Store) (sid : String)
    (row : SportsDbTeamRow) (fid : String)
    (h : trimString row.strTeam = "" ∨
      (sid, normalizeName (trimString row.strTeam)) ∈ teamKeys store) :
    (upsertTeamFromSportsDb store sid row fid).1.teams.length =
      store.teams.length := by
  unfold upsertTeamFromSportsDb
  dsimp only
  split
  · rfl
  · rename_i hname
    rcases h with h | h
    · exact absurd h hname
    · split
      · exact updateFirst_length _ _ _
      · rename_i hnone
        exfalso
        obtain ⟨t, hm, hkey⟩ := List.mem_map.mp h
        rw [Prod.mk.injEq] at hkey
        apply List.find?_eq_none.mp hnone t hm
        simp only [teamMatchesRow, Bool.and_eq_true, Bool.or_eq_true,
          beq_iff_eq]
        exact ⟨hkey.1, Or.inr hkey.2⟩

theorem upsertPlayer_len_of_covered (store : Store) (sid : String)
    (tid : Option String) (row : SportsDbPlayerRow) (fid : String)
    (h : trimString row.strPlayer = "" ∨
      (sid, normalizeName (trimString row.strPlayer)) ∈ playerKeys store) :
    (upsertPlayerFromSportsDb store sid tid row fid).1.players.length =
      store.players.length := by
  unfold upsertPlayerFromSportsDb
  dsimp only
  split
  · rfl
  · rename_i hname
    rcases h with h | h
    · exact absurd h hname
    · split
      · exact updateFirst_length _ _ _
      · rename_i hnone
        exfalso
        obtain ⟨t, hm, hkey⟩ := List.mem_map.mp h
        rw [Prod.mk.injEq] at hkey
        apply List.find?_eq_none.mp hnone t hm
        simp only [playerMatchesRow, Bool.and_eq_true, Bool.or_eq_true,
          beq_iff_eq]
        exact ⟨hkey.1, Or.inr hkey.2⟩

theorem upsertSport_len_of_covered (store : Store) (row : SportsDbSportRow)
    (fid : String)
    (h : trimString row.strSport = "" ∨
      normalizeName (trimString row.strSport) ∈ sportKeys store) :
    (upsertSportFromSportsDb store row fid).1.sports.length =
      store.sports.length := by
  unfold upsertSportFromSportsDb
  dsimp only
  split
  · rfl
  · rename_i hname
    rcases h with h | h
    · exact absurd h hname
    · split
      · exact updateFirst_length _ _ _
      · rename_i hnone
        exfalso
        obtain ⟨t, hm, hkey⟩ := List.mem_map.mp h
        apply List.find?_eq_none.mp hnone t hm
        simp only [sportMatchesRow, Bool.or_eq_true, beq_iff_eq]
        exact Or.inr hkey

theorem upsertLeague_len_of_covered (store : Store)
    (row : SportsDbLeagueRow) (fid : String)
    (h : opCovered store (MergeOp.league row)) :
    (upsertLeagueFromSportsDb store row fid).1.leagues.length =
      store.leagues.length := by
  unfold upsertLeagueFromSportsDb
  dsimp only
  split
  · rfl
  · rename_i hnames
    rcases h with h | h | ⟨sport, hfind, hkey⟩
    · exact absurd (by simp [h]) hnames
    · exact absurd (by simp [h]) hnames
    · rw [hfind]
      dsimp only
      split
      · exact updateFirst_length _ _ _
      · rename_i hnone
        exfalso
        obtain ⟨lg, hm, hkey'⟩ := List.mem_map.mp hkey
        rw [Prod.mk.injEq] at hkey'
        apply List.find?_eq_none.mp hnone lg hm
        simp only [leagueMatchesRow, Bool.and_eq_true, Bool.or_eq_true,
          beq_iff_eq]
        exact ⟨hkey'.1, Or.inr hkey'.2⟩

theorem applyMergeOp_counts_of_covered (store : Store) (fresh : Nat)
    (op : MergeOp) (hcov : opCovered store op) :
    entityCounts (applyMergeOp store fresh op).1 = entityCounts store := by
  cases op with
  | sport row =>
    simp only [entityCounts, applyMergeOp]
    rw [upsertSport_teams, upsertSport_players, upsertSport_leagues,
      upsertSport_len_of_covered store row _ hcov]
  | league row =>
    simp only [entityCounts, applyMergeOp]
    rw [upsertLeague_teams, upsertLeague_players, upsertLeague_sports,
      upsertLeague_len_of_covered store row _ hcov]
  | team sid row =>
    simp only [entityCounts, applyMergeOp]
    rw [upsertTeam_sports, upsertTeam_players, upsertTeam_leagues,
      upsertTeam_len_of_covered store sid row _ hcov]
  | player sid tid row =>
    simp only [entityCounts, applyMergeOp]
    rw [upsertPlayer_sports, upsertPlayer_teams, upsertPlayer_leagues,
      upsertPlayer_len_of_covered store sid tid row _ hcov]

theorem applyMergeOps_counts_of_covered (ops : List MergeOp) :
    ∀ (store : Store) (fresh : Nat),
      (∀ op ∈ ops, mergeOpNoExternalId op) →
      (∀ op ∈ ops, opCovered store op) →
      entityCounts (applyMergeOps store fresh ops).1 = entityCounts store := by
  induction ops with
  | nil => exact fun _ _ _ _ => rfl
  | cons op rest ih =>
    intro store fresh hnoext hcov
    simp only [applyMergeOps]
    have hext := applyMergeOp_extends store fresh op
      (hnoext op (List.mem_cons_self op rest))
    rw [ih _ _ (fun o ho => hnoext o (List.mem_cons_of_mem op ho))
      (fun o ho => opCovered_mono hext o (hcov o (List.mem_cons_of_mem op ho)))]
    exact applyMergeOp_counts_of_covered store fresh op
      (hcov op (List.mem_cons_self op rest))

instance (op : MergeOp) : Decidable (mergeOpNoExternalId op) := by
  cases op <;> (dsimp only [mergeOpNoExternalId]; infer_instance)

instance (store : Store) (op : MergeOp) :
    Decidable (leagueSportFindable store op) := by
  cases op <;> (dsimp only [leagueSportFindable]; infer_instance)

/-- C1 amended: applying the same row set twice, in the same order and with
the same scoping, yields the same final entity counts as applying it once,
PROVIDED no row carries an external id and every league row's sport already
resolves in the starting store; with external ids (or league rows whose
sport is created later in the same set) a second application can create
additional records — see the counterexample. -/
theorem mergeOps_idempotent_counts (store : Store) (f1 f2 : Nat)
    (ops : List MergeOp)
    (hnoext : ∀ op ∈ ops, mergeOpNoExternalId op)
    (hfind : ∀ op ∈ ops, leagueSportFindable store op) :
    entityCounts (applyMergeOps (applyMergeOps store f1 ops).1 f2 ops).1 =
      entityCounts (applyMergeOps store f1 ops).1 :=
  applyMergeOps_counts_of_covered ops _ f2 hnoext
    (applyMergeOps_covers ops store store f1 hnoext hfind
      (storeExtends_refl store))

/-- The C1 counterexample store: one team `beta` carrying external id `E`. -/
def c1Store : Store :=
  { emptyStore with teams :=
      [{ id := "tA", sportId := "s1", name := "beta", slug := "beta",
         externalSource := some "sportsdb", externalId := some "E" }] }

/-- The C1 counterexample rows: `alpha` matches `beta` by external id in
the first pass; `beta` then steals the id; in the second pass `alpha`
matches nothing and a new record is created. -/
def c1Ops : List MergeOp :=
  [MergeOp.team "s1" { strTeam := "alpha", idTeam := "E" },
   MergeOp.team "s1" { strTeam := "beta", idTeam := "F" }]

/-- The C1 league-ordering counterexample rows from an empty store: the
league row precedes the sport row, so pass one creates only the sport and
pass two creates the league. -/
def c1LeagueOps : List MergeOp :=
  [MergeOp.league { strLeague := "L", strSport := "S", idLeague := "" },
   MergeOp.sport { strSport := "S", idSport := "" }]

/-- C1 counterexample: both failure modes at concrete inputs — with
external ids, twice ≠ once (2 teams vs 1); and even without external ids,
a league row whose sport is created later in the same set yields twice ≠
once (a league appears only in the second pass). -/
theorem mergeOps_idempotent_cex :
    (entityCounts (applyMergeOps (applyMergeOps c1Store 0 c1Ops).1 2
        c1Ops).1 ≠
      entityCounts (applyMergeOps c1Store 0 c1Ops).1) ∧
    (entityCounts (applyMergeOps (applyMergeOps emptyStore 0 c1LeagueOps).1
        2 c1LeagueOps).1 ≠
      entityCounts (applyMergeOps emptyStore 0 c1LeagueOps).1) := by
  exact ⟨by decide, by decide⟩

/-- The C1 witness store: one sport `Basketball`. -/
def c1WStore : Store :=
  { emptyStore with sports :=
      [{ id := "s1", name := "Basketball", slug := "basketball",
         isPopular := true, externalSource := none, externalId := none }] }

/-- The C1 witness league row. -/
def c1WLeagueRow : SportsDbLeagueRow :=
  { strLeague := "NBA", strSport := "Basketball", idLeague := "" }

/-- The C1 witness player row. -/
def c1WPlayerRow : SportsDbPlayerRow :=
  { strPlayer := "LeBron James", idPlayer := "" }

/-- The C1 witness row set: one row of each kind, none with external ids,
the league row's sport pre-existing. -/
def c1WOps : List MergeOp :=
  [MergeOp.sport { strSport := "Basketball", idSport := "" },
   MergeOp.league c1WLeagueRow,
   MergeOp.team "s1" { strTeam := "Lakers", idTeam := "" },
   MergeOp.player "s1" (some "tm_2") c1WPlayerRow]

/-- C1 witness: the amended idempotence at a concrete no-external-id row
set. -/
theorem mergeOps_idempotent_counts_witness :
    (∀ op ∈ c1WOps, mergeOpNoExternalId op) ∧
    (∀ op ∈ c1WOps, leagueSportFindable c1WStore op) ∧
    entityCounts (applyMergeOps (applyMergeOps c1WStore 0 c1WOps).1 9
        c1WOps).1 =
      entityCounts (applyMergeOps c1WStore 0 c1WOps).1 :=
  ⟨by decide, by decide,
   mergeOps_idempotent_counts c1WStore 0 9 c1WOps (by decide) (by decide)⟩
